import Mathlib

/-!
# GLCLParticles: the host program `main` of `src/GLCLParticles.cpp`

The host program drives one OpenGL vertex buffer that is shared with OpenCL.
This development embeds the host side of the program:

* the binary32 arithmetic of the per-frame time values and of the spawn budget,
* the scan of the device extension string for `cl_khr_gl_sharing`,
* the sequence of SDL / OpenGL / OpenCL calls issued by `main`, as a trace of
  commands, together with the exit code of the process.

Everything the program reads from its environment (return codes of the OpenCL
calls, the extension string, the polled events, the tick counter, the values of
`rand()`) is an input of the model.
-/

namespace GLCLParticles

/-! ## Binary32 arithmetic on scaled numerators

All `float` values the host computes are non-negative and far away from the
subnormal and overflow ranges, so a value is represented by a natural numerator
over a fixed power of two, and rounding to binary32 is rounding of the numerator
to 24 significant bits (round to nearest, ties to even).
-/

/-- Number of halvings that bring `n` below `2 ^ 24`, with an explicit bound on the
number of steps. -/
def excessBitsAux : Nat → Nat → Nat
  | 0, _ => 0
  | fuel + 1, n => if n < 2 ^ 24 then 0 else excessBitsAux fuel (n / 2) + 1

/-- Number of bits by which `n` exceeds 24 significant bits. -/
def excessBits (n : Nat) : Nat := excessBitsAux n n

/-- Round a natural number to 24 significant bits, round-to-nearest, ties to even. -/
def roundSig24 (n : Nat) : Nat :=
  if n < 2 ^ 24 then n
  else
    let sh := excessBits n
    let q := n / 2 ^ sh
    let r := n % 2 ^ sh
    let half := 2 ^ (sh - 1)
    if half < r ∨ (r = half ∧ q % 2 = 1) then (q + 1) * 2 ^ sh else q * 2 ^ sh

/-- The binary32 constant `0.001f` is `milliNum / 2 ^ 33`. -/
def milliNum : Nat := 8589935

/-- Scale of the numerators that stand for `float` values of seconds: a value `x`
stands for `x / 2 ^ 33`. -/
def secScale : Nat := 2 ^ 33

/-- `static_cast<cl_float>(t) * 0.001f` for a `Uint32` value `t` (lines 395-396):
the numerator, over `2 ^ 33`, of the binary32 result. -/
def toSeconds (t : Nat) : Nat :=
  roundSig24 (roundSig24 t * milliNum)

/-- The constant `particleSpawnRate = 200000.f` (line 328). -/
def particleSpawnRate : Nat := 200000

/-- `INT_MIN` of the 32-bit `cl_int`. -/
def CL_INT_MIN : Int := -(2 ^ 31)

/-- `static_cast<cl_int>(std::ceil(x))` for the non-negative binary32 value
`num / 2 ^ 33`. A value that does not fit `cl_int` is mapped to `INT_MIN`, the
result of the x86 conversion instruction on the only supported platform. -/
def ceilToInt (num : Nat) : Int :=
  let c := (num + (secScale - 1)) / secScale
  if c < 2 ^ 31 then (c : Int) else CL_INT_MIN

/-- The per-frame spawn budget of line 468:
`static_cast<cl_int>(std::ceil(particleSpawnRate * deltaTimeSeconds))`, as a function
of the numerator of `deltaTimeSeconds`. -/
def numParticlesToSpawnOf (deltaTimeSeconds : Nat) : Int :=
  ceilToInt (roundSig24 (particleSpawnRate * deltaTimeSeconds))

/-- The spawn budget of a frame whose elapsed time is `deltaTime` milliseconds. -/
def numParticlesToSpawn (deltaTime : Nat) : Int :=
  numParticlesToSpawnOf (toSeconds deltaTime)

/-- The real-number value `ceil(spawnRate × dt)` for `dt = deltaTime × 0.001`:
`ceil(200000 × deltaTime / 1000)`. -/
def exactSpawnBudget (deltaTime : Nat) : Int :=
  ((particleSpawnRate * deltaTime + 999) / 1000 : Nat)

/-! ## The scan of the device extension string (lines 252-278) -/

/-- The macro `GL_SHARING_EXTENSION`, the string "cl_khr_gl_sharing". -/
def GL_SHARING_EXTENSION : List Char :=
  ['c', 'l', '_', 'k', 'h', 'r', '_', 'g', 'l', '_', 's', 'h', 'a', 'r', 'i', 'n', 'g']

/-- The characters of a C string: everything before the first NUL. This is the
content of `std::string(extensions)` and of `c_str()` as seen by `strcmp`. -/
def cStr (buf : List Char) : List Char :=
  buf.takeWhile (fun c => c ≠ Char.ofNat 0)

/-- The test `strcmp(a, b) == 0`. -/
def strcmpEq (a b : List Char) : Bool :=
  decide (cStr a = cStr b)

/-- Index of the first occurrence of `c` in a list, if any. -/
def findChar (c : Char) : List Char → Option Nat
  | [] => none
  | x :: xs => if x = c then some 0 else (findChar c xs).map (· + 1)

/-- The call `std::string::find(c, pos)`; `none` stands for `npos`. -/
def find (s : List Char) (c : Char) (pos : Nat) : Option Nat :=
  (findChar c (s.drop pos)).map (· + pos)

/-- The call `std::string::substr(pos, len)` for `pos ≤ size()`. -/
def substr (s : List Char) (pos len : Nat) : List Char :=
  (s.drop pos).take len

/-- The `do ... while (szSpacePos == szOldPos)` loop of lines 272-276, started with the
current `szSpacePos`; returns the new `(szOldPos, szSpacePos)`. The first argument
bounds the number of iterations. -/
def skipSpaces (s : List Char) : Nat → Nat → Option (Nat × Option Nat)
  | 0, _ => none
  | fuel + 1, szSpacePos =>
    let szOldPos := szSpacePos + 1
    let szSpacePos := find s ' ' szOldPos
    if szSpacePos = some szOldPos then skipSpaces s fuel szOldPos
    else some (szOldPos, szSpacePos)

/-- The `while (szSpacePos != npos)` loop of lines 264-277; the result is the final
value of `sharingSupported`. The first argument bounds the number of iterations. -/
def scanLoop (s : List Char) : Nat → Nat → Option Nat → Option Bool
  | 0, _, _ => none
  | _ + 1, _, none => some false
  | fuel + 1, szOldPos, some szSpacePos =>
    if strcmpEq GL_SHARING_EXTENSION (substr s szOldPos (szSpacePos - szOldPos)) then
      some true
    else
      match skipSpaces s (s.length + 1) szSpacePos with
      | none => none
      | some (szOldPos, szSpacePos) => scanLoop s fuel szOldPos szSpacePos

/-- Lines 262-277 on the string `stdDevString`, with explicit iteration bound. -/
def scanExtensionsFuel (fuel : Nat) (stdDevString : List Char) : Option Bool :=
  scanLoop stdDevString fuel 0 (find stdDevString ' ' 0)

/-- Lines 262-277 on the string `stdDevString`: the loop runs at most once per
character, so `length + 1` iterations are enough (`scanExtensionsFuel_total`). -/
def scanExtensions (stdDevString : List Char) : Bool :=
  (scanExtensionsFuel (stdDevString.length + 1) stdDevString).getD false

/-- The space-separated tokens of a string: the maximal runs of characters other than
a space, delimited by spaces or by the ends of the string. -/
def tokens : List Char → List (List Char)
  | [] => [[]]
  | c :: cs =>
    if c = ' ' then [] :: tokens cs
    else
      match tokens cs with
      | [] => [[c]]
      | t :: ts => (c :: t) :: ts

/-! ## Commands issued by the host -/

/-- The four OpenCL kernels of `cl/particle.cl` used by the host. -/
inductive Kernel
  | initParticleState
  | spawnParticle
  | updateParticleState
  | checkParticleDeath
  deriving DecidableEq, Repr

/-- The value bound by a `clSetKernelArg` call. A `float` is given by its numerator
over `2 ^ 33`. -/
inductive ArgVal
  | particleStateVboCl
  | localBytes (size : Nat)
  | int (v : Int)
  | float (num : Nat)
  deriving DecidableEq, Repr

/-- The two vertex attributes of the shading program. -/
inductive Attrib
  | position
  | isAlive
  deriving DecidableEq, Repr

/-- The queries made with `clGetDeviceInfo`. -/
inductive DeviceInfo
  | name
  | vendor
  | driverVersion
  | extensionsSize
  | extensions
  deriving DecidableEq, Repr

/-- The three shader stages. -/
inductive Stage
  | vertex
  | geometry
  | fragment
  deriving DecidableEq, Repr

/-- The calls of `main` whose arguments play no role below, named as in the source.
`DEBUG_BREAK` is the `DEBUG_BREAK()` macro on a failure path (line 44): a store through a
null pointer, which stops the process. It is the last entry of a trace in which it
occurs; the `return EXIT_FAILURE` that follows it in the source is not reached. -/
inductive Api
  | SDL_Init
  | SDL_GetCurrentDisplayMode
  | srand
  | SDL_CreateWindow
  | SDL_GL_CreateContext
  | SDL_GL_MakeCurrent
  | SDL_GL_SetAttribute
  | glewInit
  | compileProgram
  | glGetUniformLocation
  | glDisable
  | glEnable
  | glBlendFunc
  | glClearColor
  | loadImage
  | clGetPlatformIDs
  | clGetDeviceIDs
  | clCreateContext
  | clCreateCommandQueue
  | clCreateProgramWithSource
  | clBuildProgram
  | glGenBuffers
  | glBindBuffer
  | clCreateFromGLBuffer
  | glFinish
  | clGetKernelWorkGroupInfo
  | clEnqueueAcquireGLObjects
  | clEnqueueReleaseGLObjects
  | clFinish
  | SDL_GetTicks
  | SDL_GetKeyboardState
  | glClear
  | glUseProgram
  | glActiveTexture
  | glBindTexture
  | glUniform1i
  | glUniformMatrix4fv
  | glEnableClientState
  | glDisableClientState
  | SDL_GL_SwapWindow
  | SDL_SetWindowTitle
  | clReleaseContext
  | clReleaseCommandQueue
  | clReleaseMemObject
  | clReleaseProgram
  | glDeleteTextures
  | glDeleteBuffers
  | glDeleteProgram
  | SDL_GL_DeleteContext
  | SDL_DestroyWindow
  | SDL_Quit
  | DEBUG_BREAK
  deriving DecidableEq, Repr

/-- The calls `main` makes to SDL, OpenGL and OpenCL, with the arguments the properties
below refer to. -/
inductive Cmd
  | api (f : Api)
  | loadShader (stage : Stage)
  | glGetAttribLocation (a : Attrib)
  | glViewport (width height : Nat)
  | clGetDeviceInfo (q : DeviceInfo)
  | glBufferData (size : Nat)
  | clCreateKernel (k : Kernel)
  | clSetKernelArg (k : Kernel) (index : Nat) (v : ArgVal)
  | clEnqueueNDRangeKernel (k : Kernel) (globalWorkSize : Nat)
  | glEnableVertexAttribArray (a : Attrib)
  | glVertexAttribPointer (a : Attrib) (size typeBytes stride offset : Nat)
  | glDrawArrays (first count : Nat)
  | glDisableVertexAttribArray (a : Attrib)
  | clReleaseKernel (k : Kernel)
  | glDeleteShader (stage : Stage)
  deriving DecidableEq, Repr

/-- The OpenCL status `CL_SUCCESS`. -/
def CL_SUCCESS : Int := 0

/-- Process result `EXIT_SUCCESS`. -/
def EXIT_SUCCESS : Int := 0

/-- Process result `EXIT_FAILURE`. -/
def EXIT_FAILURE : Int := 1

/-- One call of the straight-line code together with the outcome of the test that
follows it in the source: `failed` says that the test takes its failure path, `trap`
that this path starts with `DEBUG_BREAK()` rather than going straight to
`return EXIT_FAILURE`. A call that is not followed by a test has `failed = false`. -/
structure Call where
  cmd : Cmd
  failed : Bool
  trap : Bool
  deriving DecidableEq, Repr

/-- A call whose result is not tested. -/
def Call.plain (c : Cmd) : Call := ⟨c, false, false⟩

/-- A call followed by `CHECK_ERROR_CODE` or `CHECK_ERROR_CODE_LOG` (lines 46-64) on the
status `code`: on `code != CL_SUCCESS` the diagnostic is printed and `DEBUG_BREAK()`
runs. The printing of the diagnostic (`getErrorString`, `getErrorLog`) is not recorded in
the trace. -/
def Call.checked (c : Cmd) (code : Int) : Call := ⟨c, decide (code ≠ CL_SUCCESS), true⟩

/-- A call followed by a test that returns `EXIT_FAILURE` without `DEBUG_BREAK()`. -/
def Call.orReturn (c : Cmd) (ok : Bool) : Call := ⟨c, !ok, false⟩

/-- A call followed by a test whose failure path is `DEBUG_BREAK()` (lines 123-150). -/
def Call.orTrap (c : Cmd) (ok : Bool) : Call := ⟨c, !ok, true⟩

/-- How a straight-line sequence of calls ends: its end is reached, or a test returns
`EXIT_FAILURE` from `main`, or a test runs `DEBUG_BREAK()` and the process is stopped by
the store through the null pointer. -/
inductive Ending
  | completed
  | returned
  | trapped
  deriving DecidableEq, Repr

/-- Run a straight-line sequence of calls: the commands issued, and how the sequence
ends. -/
def runCalls : List Call → List Cmd × Ending
  | [] => ([], Ending.completed)
  | c :: cs =>
    if c.failed then
      if c.trap then ([c.cmd, Cmd.api Api.DEBUG_BREAK], Ending.trapped)
      else ([c.cmd], Ending.returned)
    else ((c.cmd :: (runCalls cs).1), (runCalls cs).2)

/-! ## The frame loop (lines 384-551) -/

/-- The constant `NUM_PARTICLES` (line 311); it is also the only entry of
`globalWorkSize`. -/
def NUM_PARTICLES : Nat := 1000000

/-- The variable `particleStateStructSize` (line 319). -/
def particleStateStructSize : Nat := 64

/-- The variable `particleStateSize` (line 320), an `unsigned int`. -/
def particleStateSize : Nat := (NUM_PARTICLES * particleStateStructSize) % 2 ^ 32

/-- Subtraction of two `Uint32` values. -/
def u32sub (a b : Nat) : Nat := (a + (2 ^ 32 - b % 2 ^ 32)) % 2 ^ 32

/-- The events the loop distinguishes (lines 400-422). -/
inductive Event
  | quit
  | keyDown (sym : Nat)
  | windowResized (data1 data2 : Nat)
  | other
  deriving DecidableEq, Repr

/-- The key code `SDLK_ESCAPE`. -/
def SDLK_ESCAPE : Nat := 27

/-- The status returned by each OpenCL call of one frame, in source order. -/
structure FrameCodes where
  acquire : Int
  spawnArg2 : Int
  spawnArg3 : Int
  spawnArg4 : Int
  spawnEnqueue : Int
  updateArg1 : Int
  updateArg2 : Int
  updateEnqueue : Int
  deathArg1 : Int
  deathEnqueue : Int
  release : Int
  finish : Int
  deriving DecidableEq, Repr

/-- Everything one frame reads from its environment: the events returned by
`SDL_PollEvent` until the queue is empty, the statuses of the OpenCL calls, the values
of the two `rand()` calls (lines 476 and 489) and the value of `SDL_GetTicks()` at the
end of the frame (line 546). -/
structure FrameInput where
  events : List Event
  codes : FrameCodes
  spawnSeed : Int
  updateSeed : Int
  ticks : Nat
  deriving DecidableEq, Repr

/-- The variables that live across iterations: `t1`, `deltaTime`, `loop`. -/
structure LoopState where
  t1 : Nat
  deltaTime : Nat
  loop : Bool
  deriving DecidableEq, Repr

/-- Effect of one polled event on the flag `loop` (lines 400-413). -/
def handleEvent (loop : Bool) : Event → Bool
  | Event.quit => false
  | Event.keyDown sym => if sym = SDLK_ESCAPE then false else loop
  | Event.windowResized _ _ => loop
  | Event.other => loop

/-- The flag `loop` after the `while (SDL_PollEvent(&event))` loop. -/
def pollEvents (loop : Bool) (events : List Event) : Bool :=
  events.foldl handleEvent loop

/-- The OpenGL calls made while polling: `updateWindowSize` on a resize (line 419). -/
def eventCalls : List Event → List Call
  | [] => []
  | Event.windowResized w h :: es => Call.plain (Cmd.glViewport w h) :: eventCalls es
  | _ :: es => eventCalls es

/-- Lines 470-485: the spawn block, entered when `numParticlesToSpawn > 0`. -/
def spawnCalls (numParticlesToSpawn : Int) (currentTimeSeconds : Nat) (inp : FrameInput) :
    List Call :=
  if 0 < numParticlesToSpawn then
    [ Call.checked (Cmd.clSetKernelArg Kernel.spawnParticle 2 (ArgVal.int numParticlesToSpawn))
        inp.codes.spawnArg2,
      Call.checked (Cmd.clSetKernelArg Kernel.spawnParticle 3 (ArgVal.int inp.spawnSeed))
        inp.codes.spawnArg3,
      Call.checked (Cmd.clSetKernelArg Kernel.spawnParticle 4 (ArgVal.float currentTimeSeconds))
        inp.codes.spawnArg4,
      Call.checked (Cmd.clEnqueueNDRangeKernel Kernel.spawnParticle NUM_PARTICLES)
        inp.codes.spawnEnqueue ]
  else []

/-- Lines 487-512: update, death check, release, `clFinish`. -/
def updateCalls (currentTimeSeconds deltaTimeSeconds : Nat) (inp : FrameInput) : List Call :=
  [ Call.checked (Cmd.clSetKernelArg Kernel.updateParticleState 1 (ArgVal.int inp.updateSeed))
      inp.codes.updateArg1,
    Call.checked (Cmd.clSetKernelArg Kernel.updateParticleState 2 (ArgVal.float deltaTimeSeconds))
      inp.codes.updateArg2,
    Call.checked (Cmd.clEnqueueNDRangeKernel Kernel.updateParticleState NUM_PARTICLES)
      inp.codes.updateEnqueue,
    Call.checked (Cmd.clSetKernelArg Kernel.checkParticleDeath 1 (ArgVal.float currentTimeSeconds))
      inp.codes.deathArg1,
    Call.checked (Cmd.clEnqueueNDRangeKernel Kernel.checkParticleDeath NUM_PARTICLES)
      inp.codes.deathEnqueue,
    Call.checked (Cmd.api Api.clEnqueueReleaseGLObjects) inp.codes.release,
    Call.checked (Cmd.api Api.clFinish) inp.codes.finish ]

/-- Lines 514-550: the OpenGL rendering of the frame, the presentation and the
measurement of the frame time. -/
def renderCmds : List Cmd :=
  [ Cmd.api Api.glClear,
    Cmd.api Api.glUseProgram,
    Cmd.api Api.glActiveTexture,
    Cmd.api Api.glBindTexture,
    Cmd.api Api.glUniform1i,
    Cmd.api Api.glUniformMatrix4fv,
    Cmd.api Api.glUniformMatrix4fv,
    Cmd.api Api.glEnableClientState,
    Cmd.glEnableVertexAttribArray Attrib.position,
    Cmd.glEnableVertexAttribArray Attrib.isAlive,
    Cmd.api Api.glBindBuffer,
    Cmd.glVertexAttribPointer Attrib.position 3 4 particleStateStructSize 0,
    Cmd.glVertexAttribPointer Attrib.isAlive 1 1 particleStateStructSize 16,
    Cmd.glDrawArrays 0 NUM_PARTICLES,
    Cmd.glDisableVertexAttribArray Attrib.position,
    Cmd.glDisableVertexAttribArray Attrib.isAlive,
    Cmd.api Api.glDisableClientState,
    Cmd.api Api.glUseProgram,
    Cmd.api Api.SDL_GL_SwapWindow,
    Cmd.api Api.SDL_GetTicks,
    Cmd.api Api.SDL_SetWindowTitle ]

/-- The body of one iteration of the main loop (lines 398-550), in source order, for the
values of the locals `currentTimeSeconds`, `deltaTimeSeconds` and `numParticlesToSpawn`.
The camera update (lines 425-459) only changes host variables and issues no call besides
`SDL_GetKeyboardState`. -/
def frameBody (currentTimeSeconds deltaTimeSeconds : Nat) (numParticlesToSpawn : Int)
    (inp : FrameInput) : List Call :=
  eventCalls inp.events ++
    [ Call.plain (Cmd.api Api.SDL_GetKeyboardState),
      Call.plain (Cmd.api Api.glFinish),
      Call.checked (Cmd.api Api.clEnqueueAcquireGLObjects) inp.codes.acquire ] ++
    spawnCalls numParticlesToSpawn currentTimeSeconds inp ++
    updateCalls currentTimeSeconds deltaTimeSeconds inp ++
    renderCmds.map Call.plain

/-- The calls of one iteration of the main loop (lines 395-550) for the values of `t1`
and `deltaTime` at the head of the iteration. -/
def frameCalls (st : LoopState) (inp : FrameInput) : List Call :=
  frameBody (toSeconds st.t1) (toSeconds st.deltaTime)
    (numParticlesToSpawnOf (toSeconds st.deltaTime)) inp

/-- Outcome of one iteration: the commands issued, how the body ends, and the loop
variables at the head of the next iteration. -/
structure FrameResult where
  trace : List Cmd
  ending : Ending
  next : LoopState
  deriving DecidableEq, Repr

/-- One iteration of the main loop. -/
def frame (st : LoopState) (inp : FrameInput) : FrameResult :=
  let r := runCalls (frameCalls st inp)
  let t2 := inp.ticks % 2 ^ 32
  { trace := r.1
    ending := r.2
    next := { t1 := t2, deltaTime := u32sub t2 st.t1, loop := pollEvents st.loop inp.events } }

/-- Lines 553-574: release of the OpenCL, OpenGL and SDL resources. -/
def shutdownCmds : List Cmd :=
  [ Cmd.api Api.clReleaseContext,
    Cmd.api Api.clReleaseCommandQueue,
    Cmd.api Api.clReleaseMemObject,
    Cmd.clReleaseKernel Kernel.initParticleState,
    Cmd.clReleaseKernel Kernel.spawnParticle,
    Cmd.clReleaseKernel Kernel.updateParticleState,
    Cmd.clReleaseKernel Kernel.checkParticleDeath,
    Cmd.api Api.clReleaseProgram,
    Cmd.api Api.glDeleteTextures,
    Cmd.api Api.glDeleteBuffers,
    Cmd.glDeleteShader Stage.vertex,
    Cmd.glDeleteShader Stage.geometry,
    Cmd.glDeleteShader Stage.fragment,
    Cmd.api Api.glDeleteProgram,
    Cmd.api Api.SDL_GL_DeleteContext,
    Cmd.api Api.SDL_DestroyWindow,
    Cmd.api Api.SDL_Quit ]

/-- An execution, or the beginning of one: the commands issued so far, the value
returned by `main` (`none` when `main` has not returned: the loop is still running, or
the process was stopped by `DEBUG_BREAK()`), the loop variables at the head of every
iteration whose body was entered, and whether the process was stopped by
`DEBUG_BREAK()`. -/
structure Run where
  trace : List Cmd
  exit : Option Int
  frames : List LoopState
  trapped : Bool
  deriving DecidableEq, Repr

/-- The main loop `while (loop)` followed by the shutdown code, run on the inputs of
the successive frames. When the inputs are used up while `loop` is still set, the
result describes the execution up to that point. -/
def runLoop : LoopState → List FrameInput → Run
  | st, [] =>
    if st.loop then ⟨[], none, [], false⟩ else ⟨shutdownCmds, some EXIT_SUCCESS, [], false⟩
  | st, inp :: rest =>
    if st.loop then
      match (frame st inp).ending with
      | Ending.completed =>
        ⟨(frame st inp).trace ++ (runLoop (frame st inp).next rest).trace,
          (runLoop (frame st inp).next rest).exit,
          st :: (runLoop (frame st inp).next rest).frames,
          (runLoop (frame st inp).next rest).trapped⟩
      | Ending.returned => ⟨(frame st inp).trace, some EXIT_FAILURE, [st], false⟩
      | Ending.trapped => ⟨(frame st inp).trace, none, [st], true⟩
    else ⟨shutdownCmds, some EXIT_SUCCESS, [], false⟩

/-! ## Startup (lines 69-384) and `main` -/

/-- Everything the startup code reads from its environment: the outcome of each tested
call, the extension query of the device, and the first value of `SDL_GetTicks()`. -/
structure Setup where
  windowOk : Bool
  glContextOk : Bool
  glewOk : Bool
  shadersSupported : Bool
  vertexShaderOk : Bool
  geometryShaderOk : Bool
  fragmentShaderOk : Bool
  programOk : Bool
  windowWidth : Nat
  windowHeight : Nat
  codePlatformIDs : Int
  codeDeviceIDs : Int
  codeExtensionsSize : Int
  extensionSize : Nat
  codeExtensions : Int
  extensions : List Char
  codeCreateContext : Int
  codeCreateCommandQueue : Int
  codeCreateProgram : Int
  codeBuildProgram : Int
  codeCreateKernelInit : Int
  codeInitArg0 : Int
  codeInitAcquire : Int
  codeInitEnqueue : Int
  codeInitRelease : Int
  codeInitFinish : Int
  codeCreateKernelSpawn : Int
  spawnParticleKernelWorkGroupSize : Nat
  codeSpawnArg0 : Int
  codeSpawnArg1 : Int
  codeCreateKernelUpdate : Int
  codeUpdateArg0 : Int
  codeCreateKernelDeath : Int
  codeDeathArg0 : Int
  ticks : Nat

/-- Lines 69-258: window, OpenGL context, shaders, OpenCL platform and device, and the
query of the extension string. `readFile` only reads host files and is not listed. The
two tests after `glewInit` (lines 105-119), which both return `EXIT_FAILURE` with no call
in between, are one test here. -/
def startupCalls (s : Setup) : List Call :=
  [ Call.plain (Cmd.api Api.SDL_Init),
    Call.plain (Cmd.api Api.SDL_GetCurrentDisplayMode),
    Call.plain (Cmd.api Api.srand),
    Call.orReturn (Cmd.api Api.SDL_CreateWindow) s.windowOk,
    Call.orReturn (Cmd.api Api.SDL_GL_CreateContext) s.glContextOk,
    Call.plain (Cmd.api Api.SDL_GL_MakeCurrent),
    Call.plain (Cmd.api Api.SDL_GL_SetAttribute),
    Call.plain (Cmd.api Api.SDL_GL_SetAttribute),
    Call.orReturn (Cmd.api Api.glewInit) (s.glewOk && s.shadersSupported),
    Call.orTrap (Cmd.loadShader Stage.vertex) s.vertexShaderOk,
    Call.orTrap (Cmd.loadShader Stage.geometry) s.geometryShaderOk,
    Call.orTrap (Cmd.loadShader Stage.fragment) s.fragmentShaderOk,
    Call.orTrap (Cmd.api Api.compileProgram) s.programOk,
    Call.plain (Cmd.api Api.glGetUniformLocation),
    Call.plain (Cmd.api Api.glGetUniformLocation),
    Call.plain (Cmd.api Api.glGetUniformLocation),
    Call.plain (Cmd.glGetAttribLocation Attrib.position),
    Call.plain (Cmd.glGetAttribLocation Attrib.isAlive),
    Call.plain (Cmd.api Api.glDisable),
    Call.plain (Cmd.api Api.glEnable),
    Call.plain (Cmd.api Api.glBlendFunc),
    Call.plain (Cmd.api Api.glClearColor),
    Call.plain (Cmd.glViewport s.windowWidth s.windowHeight),
    Call.plain (Cmd.api Api.loadImage),
    Call.checked (Cmd.api Api.clGetPlatformIDs) s.codePlatformIDs,
    Call.checked (Cmd.api Api.clGetDeviceIDs) s.codeDeviceIDs,
    Call.plain (Cmd.clGetDeviceInfo DeviceInfo.name),
    Call.plain (Cmd.clGetDeviceInfo DeviceInfo.vendor),
    Call.plain (Cmd.clGetDeviceInfo DeviceInfo.driverVersion),
    Call.checked (Cmd.clGetDeviceInfo DeviceInfo.extensionsSize) s.codeExtensionsSize ] ++
  (if 0 < s.extensionSize then
    [ Call.checked (Cmd.clGetDeviceInfo DeviceInfo.extensions) s.codeExtensions ]
  else [])

/-- The variable `sharingSupported` at line 280. -/
def sharingSupported (s : Setup) : Bool :=
  if 0 < s.extensionSize then scanExtensions (cStr s.extensions) else false

/-- Lines 286-384: context, queue, program, shared buffer, the one-time init pass, the
three per-frame kernels and the first tick reading. `clCreateFromGLBuffer` is called
with a null `errcode_ret`, so the test after it sees the status left by
`clBuildProgram`. -/
def computeSetupCalls (s : Setup) : List Call :=
  [ Call.checked (Cmd.api Api.clCreateContext) s.codeCreateContext,
    Call.checked (Cmd.api Api.clCreateCommandQueue) s.codeCreateCommandQueue,
    Call.checked (Cmd.api Api.clCreateProgramWithSource) s.codeCreateProgram,
    Call.checked (Cmd.api Api.clBuildProgram) s.codeBuildProgram,
    Call.plain (Cmd.api Api.glGenBuffers),
    Call.plain (Cmd.api Api.glBindBuffer),
    Call.plain (Cmd.glBufferData particleStateSize),
    Call.checked (Cmd.api Api.clCreateFromGLBuffer) s.codeBuildProgram,
    Call.plain (Cmd.api Api.glFinish),
    Call.checked (Cmd.clCreateKernel Kernel.initParticleState) s.codeCreateKernelInit,
    Call.checked (Cmd.clSetKernelArg Kernel.initParticleState 0 ArgVal.particleStateVboCl)
      s.codeInitArg0,
    Call.checked (Cmd.api Api.clEnqueueAcquireGLObjects) s.codeInitAcquire,
    Call.checked (Cmd.clEnqueueNDRangeKernel Kernel.initParticleState NUM_PARTICLES)
      s.codeInitEnqueue,
    Call.checked (Cmd.api Api.clEnqueueReleaseGLObjects) s.codeInitRelease,
    Call.checked (Cmd.api Api.clFinish) s.codeInitFinish,
    Call.checked (Cmd.clCreateKernel Kernel.spawnParticle) s.codeCreateKernelSpawn,
    Call.plain (Cmd.api Api.clGetKernelWorkGroupInfo),
    Call.checked (Cmd.clSetKernelArg Kernel.spawnParticle 0 ArgVal.particleStateVboCl)
      s.codeSpawnArg0,
    Call.checked (Cmd.clSetKernelArg Kernel.spawnParticle 1
      (ArgVal.localBytes s.spawnParticleKernelWorkGroupSize)) s.codeSpawnArg1,
    Call.checked (Cmd.clCreateKernel Kernel.updateParticleState) s.codeCreateKernelUpdate,
    Call.checked (Cmd.clSetKernelArg Kernel.updateParticleState 0 ArgVal.particleStateVboCl)
      s.codeUpdateArg0,
    Call.checked (Cmd.clCreateKernel Kernel.checkParticleDeath) s.codeCreateKernelDeath,
    Call.checked (Cmd.clSetKernelArg Kernel.checkParticleDeath 0 ArgVal.particleStateVboCl)
      s.codeDeathArg0,
    Call.plain (Cmd.api Api.SDL_GetTicks) ]

/-- The loop variables at line 392: `t1 = SDL_GetTicks()`, `deltaTime = 0`,
`loop = true`. -/
def initialState (s : Setup) : LoopState :=
  { t1 := s.ticks % 2 ^ 32, deltaTime := 0, loop := true }

/-- The function `main` (lines 67-577), run on the startup inputs `s` and on the inputs
of the successive frames. -/
def main (s : Setup) (inputs : List FrameInput) : Run :=
  match (runCalls (startupCalls s)).2 with
  | Ending.returned => ⟨(runCalls (startupCalls s)).1, some EXIT_FAILURE, [], false⟩
  | Ending.trapped => ⟨(runCalls (startupCalls s)).1, none, [], true⟩
  | Ending.completed =>
    if sharingSupported s then
      match (runCalls (computeSetupCalls s)).2 with
      | Ending.returned =>
        ⟨(runCalls (startupCalls s)).1 ++ (runCalls (computeSetupCalls s)).1,
          some EXIT_FAILURE, [], false⟩
      | Ending.trapped =>
        ⟨(runCalls (startupCalls s)).1 ++ (runCalls (computeSetupCalls s)).1, none, [], true⟩
      | Ending.completed =>
        ⟨(runCalls (startupCalls s)).1 ++ (runCalls (computeSetupCalls s)).1 ++
            (runLoop (initialState s) inputs).trace,
          (runLoop (initialState s) inputs).exit,
          (runLoop (initialState s) inputs).frames,
          (runLoop (initialState s) inputs).trapped⟩
    else ⟨(runCalls (startupCalls s)).1, some EXIT_FAILURE, [], false⟩

/-! ## Ownership of the shared buffer -/

/-- The side that owns the shared buffer. -/
inductive Owner
  | graphics
  | compute
  deriving DecidableEq, Repr

/-- The owner after a command: `clEnqueueAcquireGLObjects` hands the buffer to compute,
`clEnqueueReleaseGLObjects` hands it back to graphics. -/
def ownerNext (o : Owner) : Cmd → Owner
  | Cmd.api Api.clEnqueueAcquireGLObjects => Owner.compute
  | Cmd.api Api.clEnqueueReleaseGLObjects => Owner.graphics
  | _ => o

/-- Whether a command may be issued under the owner `o`: a draw and an acquire need the
owner to be graphics, a kernel dispatch needs it to be compute. -/
def ownerOk (o : Owner) : Cmd → Bool
  | Cmd.api Api.clEnqueueAcquireGLObjects => decide (o = Owner.graphics)
  | Cmd.clEnqueueNDRangeKernel _ _ => decide (o = Owner.compute)
  | Cmd.glDrawArrays _ _ => decide (o = Owner.graphics)
  | _ => true

/-- The owner after a sequence of commands. -/
def ownerAfter : Owner → List Cmd → Owner
  | o, [] => o
  | o, c :: cs => ownerAfter (ownerNext o c) cs

/-- Every command of the sequence is issued under an owner that permits it. -/
def ownershipRespected : Owner → List Cmd → Bool
  | _, [] => true
  | o, c :: cs => ownerOk o c && ownershipRespected (ownerNext o c) cs

/-- The commands of the buffer protocol: flush, acquire, dispatch, release, finish, draw,
present. -/
def isProtocolCmd : Cmd → Bool
  | Cmd.api Api.glFinish => true
  | Cmd.api Api.clEnqueueAcquireGLObjects => true
  | Cmd.clEnqueueNDRangeKernel _ _ => true
  | Cmd.api Api.clEnqueueReleaseGLObjects => true
  | Cmd.api Api.clFinish => true
  | Cmd.glDrawArrays _ _ => true
  | Cmd.api Api.SDL_GL_SwapWindow => true
  | _ => false

/-- A kernel dispatch (`clEnqueueNDRangeKernel`). -/
def isDispatch : Cmd → Bool
  | Cmd.clEnqueueNDRangeKernel _ _ => true
  | _ => false

/-- An argument binding or a dispatch of the kernel `k`. -/
def usesKernel (k : Kernel) : Cmd → Bool
  | Cmd.clSetKernelArg k1 _ _ => decide (k1 = k)
  | Cmd.clEnqueueNDRangeKernel k1 _ => decide (k1 = k)
  | _ => false

/-- The command `clEnqueueAcquireGLObjects`. -/
def isAcquire : Cmd → Bool
  | Cmd.api Api.clEnqueueAcquireGLObjects => true
  | _ => false

/-- The command `glFinish`. -/
def isFlush : Cmd → Bool
  | Cmd.api Api.glFinish => true
  | _ => false

/-- Every `clEnqueueAcquireGLObjects` of the sequence comes directly after a `glFinish`;
`prevFlush` says whether the command before the sequence is a `glFinish`. -/
def acquireAfterFlush : Bool → List Cmd → Bool
  | _, [] => true
  | prevFlush, c :: cs => (!isAcquire c || prevFlush) && acquireAfterFlush (isFlush c) cs

/-- A quit signal: `SDL_QUIT`, or a key-down event for the Escape key. -/
def isQuitSignal : Event → Bool
  | Event.quit => true
  | Event.keyDown sym => decide (sym = SDLK_ESCAPE)
  | _ => false

/-- A quit signal is among the events polled in the frame. -/
def quitPolled (events : List Event) : Bool :=
  events.any isQuitSignal

/-- The calls that release a resource (lines 553-574). -/
def isResourceRelease : Cmd → Bool
  | Cmd.api Api.clReleaseContext => true
  | Cmd.api Api.clReleaseCommandQueue => true
  | Cmd.api Api.clReleaseMemObject => true
  | Cmd.clReleaseKernel _ => true
  | Cmd.api Api.clReleaseProgram => true
  | Cmd.api Api.glDeleteTextures => true
  | Cmd.api Api.glDeleteBuffers => true
  | Cmd.glDeleteShader _ => true
  | Cmd.api Api.glDeleteProgram => true
  | Cmd.api Api.SDL_GL_DeleteContext => true
  | Cmd.api Api.SDL_DestroyWindow => true
  | Cmd.api Api.SDL_Quit => true
  | _ => false

/-- The tick readings of an execution: reading 0 is the value of `SDL_GetTicks()` before
the loop (line 384), reading `k + 1` the value read at the end of frame `k + 1`
(line 546). -/
def tickReading (s : Setup) (inputs : List FrameInput) : Nat → Nat
  | 0 => s.ticks % 2 ^ 32
  | k + 1 =>
    match inputs.get? k with
    | some inp => inp.ticks % 2 ^ 32
    | none => 0

/-- The calls that create the compute context, the command queue, the program, the shared
buffer or a kernel (lines 294-378). -/
def isComputeSetup : Cmd → Bool
  | Cmd.api Api.clCreateContext => true
  | Cmd.api Api.clCreateCommandQueue => true
  | Cmd.api Api.clCreateProgramWithSource => true
  | Cmd.api Api.clBuildProgram => true
  | Cmd.api Api.glGenBuffers => true
  | Cmd.glBufferData _ => true
  | Cmd.api Api.clCreateFromGLBuffer => true
  | Cmd.clCreateKernel _ => true
  | _ => false

/-- Every token of the text from position `o` on is a token of the whole string: `o` is
the start of the string or comes directly after a space. -/
def AtTokenStart (s : List Char) (o : Nat) : Prop :=
  ∀ x ∈ tokens (s.drop o), x ∈ tokens s

/-- From position `o` on, the string consists of text that is empty or ends with a space,
then the name of the sharing extension, a space, and `post`. -/
def TokenAhead (s post : List Char) (o : Nat) : Prop :=
  ∃ m, s.drop o = m ++ GL_SHARING_EXTENSION ++ ' ' :: post ∧ (m = [] ∨ ∃ m1, m = m1 ++ [' '])

/-- The seed bound as argument 3 of the spawn kernel by a command, if it is such a
binding. -/
def spawnSeedOf : Cmd → Option Int
  | Cmd.clSetKernelArg Kernel.spawnParticle 3 (ArgVal.int v) => some v
  | _ => none

/-- The seeds bound to the spawn kernel by a sequence of commands, in order. -/
def spawnSeeds (trace : List Cmd) : List Int :=
  trace.filterMap spawnSeedOf

/-- The command is the submission of the spawn kernel (line 483). -/
def isSpawnDispatch : Cmd → Bool
  | Cmd.clEnqueueNDRangeKernel Kernel.spawnParticle _ => true
  | _ => false

/-- Every seed bound to the spawn kernel by the sequence is `seed`, and every submission
of the spawn kernel in it comes after such a binding; `bound` says whether the seed is
bound before the sequence. -/
def seedBoundBeforeDispatch (seed : Int) : Bool → List Cmd → Bool
  | _, [] => true
  | bound, c :: cs =>
    match spawnSeedOf c with
    | some v => decide (v = seed) && seedBoundBeforeDispatch seed true cs
    | none => (!isSpawnDispatch c || bound) && seedBoundBeforeDispatch seed bound cs

/-! ## Error names (lines 645-720) -/

/-- The function `getErrorString`: the `switch` over the error code, one test per
`case` label in source order, the last line being the `default` label. -/
def getErrorString (error : Int) : String :=
  if error = 0 then "CL_SUCCESS"
  else if error = -1 then "CL_DEVICE_NOT_FOUND"
  else if error = -2 then "CL_DEVICE_NOT_AVAILABLE"
  else if error = -3 then "CL_COMPILER_NOT_AVAILABLE"
  else if error = -4 then "CL_MEM_OBJECT_ALLOCATION_FAILURE"
  else if error = -5 then "CL_OUT_OF_RESOURCES"
  else if error = -6 then "CL_OUT_OF_HOST_MEMORY"
  else if error = -7 then "CL_PROFILING_INFO_NOT_AVAILABLE"
  else if error = -8 then "CL_MEM_COPY_OVERLAP"
  else if error = -9 then "CL_IMAGE_FORMAT_MISMATCH"
  else if error = -10 then "CL_IMAGE_FORMAT_NOT_SUPPORTED"
  else if error = -11 then "CL_BUILD_PROGRAM_FAILURE"
  else if error = -12 then "CL_MAP_FAILURE"
  else if error = -13 then "CL_MISALIGNED_SUB_BUFFER_OFFSET"
  else if error = -14 then "CL_EXEC_STATUS_ERROR_FOR_EVENTS_IN_WAIT_LIST"
  else if error = -15 then "CL_COMPILE_PROGRAM_FAILURE"
  else if error = -16 then "CL_LINKER_NOT_AVAILABLE"
  else if error = -17 then "CL_LINK_PROGRAM_FAILURE"
  else if error = -18 then "CL_DEVICE_PARTITION_FAILED"
  else if error = -19 then "CL_KERNEL_ARG_INFO_NOT_AVAILABLE"
  else if error = -30 then "CL_INVALID_VALUE"
  else if error = -31 then "CL_INVALID_DEVICE_TYPE"
  else if error = -32 then "CL_INVALID_PLATFORM"
  else if error = -33 then "CL_INVALID_DEVICE"
  else if error = -34 then "CL_INVALID_CONTEXT"
  else if error = -35 then "CL_INVALID_QUEUE_PROPERTIES"
  else if error = -36 then "CL_INVALID_COMMAND_QUEUE"
  else if error = -37 then "CL_INVALID_HOST_PTR"
  else if error = -38 then "CL_INVALID_MEM_OBJECT"
  else if error = -39 then "CL_INVALID_IMAGE_FORMAT_DESCRIPTOR"
  else if error = -40 then "CL_INVALID_IMAGE_SIZE"
  else if error = -41 then "CL_INVALID_SAMPLER"
  else if error = -42 then "CL_INVALID_BINARY"
  else if error = -43 then "CL_INVALID_BUILD_OPTIONS"
  else if error = -44 then "CL_INVALID_PROGRAM"
  else if error = -45 then "CL_INVALID_PROGRAM_EXECUTABLE"
  else if error = -46 then "CL_INVALID_KERNEL_NAME"
  else if error = -47 then "CL_INVALID_KERNEL_DEFINITION"
  else if error = -48 then "CL_INVALID_KERNEL"
  else if error = -49 then "CL_INVALID_ARG_INDEX"
  else if error = -50 then "CL_INVALID_ARG_VALUE"
  else if error = -51 then "CL_INVALID_ARG_SIZE"
  else if error = -52 then "CL_INVALID_KERNEL_ARGS"
  else if error = -53 then "CL_INVALID_WORK_DIMENSION"
  else if error = -54 then "CL_INVALID_WORK_GROUP_SIZE"
  else if error = -55 then "CL_INVALID_WORK_ITEM_SIZE"
  else if error = -56 then "CL_INVALID_GLOBAL_OFFSET"
  else if error = -57 then "CL_INVALID_EVENT_WAIT_LIST"
  else if error = -58 then "CL_INVALID_EVENT"
  else if error = -59 then "CL_INVALID_OPERATION"
  else if error = -60 then "CL_INVALID_GL_OBJECT"
  else if error = -61 then "CL_INVALID_BUFFER_SIZE"
  else if error = -62 then "CL_INVALID_MIP_LEVEL"
  else if error = -63 then "CL_INVALID_GLOBAL_WORK_SIZE"
  else if error = -64 then "CL_INVALID_PROPERTY"
  else if error = -65 then "CL_INVALID_IMAGE_DESCRIPTOR"
  else if error = -66 then "CL_INVALID_COMPILER_OPTIONS"
  else if error = -67 then "CL_INVALID_LINKER_OPTIONS"
  else if error = -68 then "CL_INVALID_DEVICE_PARTITION_COUNT"
  else if error = -1000 then "CL_INVALID_GL_SHAREGROUP_REFERENCE_KHR"
  else if error = -1001 then "CL_PLATFORM_NOT_FOUND_KHR"
  else if error = -1002 then "CL_INVALID_D3D10_DEVICE_KHR"
  else if error = -1003 then "CL_INVALID_D3D10_RESOURCE_KHR"
  else if error = -1004 then "CL_D3D10_RESOURCE_ALREADY_ACQUIRED_KHR"
  else if error = -1005 then "CL_D3D10_RESOURCE_NOT_ACQUIRED_KHR"
  else "Unknown OpenCL error"

/-- The codes with a name of their own: 0 to -19, -30 to -68 and -1000 to -1005. -/
def isRecognisedCode (e : Int) : Prop :=
  (-19 ≤ e ∧ e ≤ 0) ∨ (-68 ≤ e ∧ e ≤ -30) ∨ (-1005 ≤ e ∧ e ≤ -1000)

/-- The recognised codes, listed in the order of the `switch`. -/
def recognisedCodes : List Int :=
  (List.range 20).map (fun (n : Nat) => -(n : Int)) ++
    (List.range 39).map (fun (n : Nat) => -((n : Int) + 30)) ++
    (List.range 6).map (fun (n : Nat) => -((n : Int) + 1000))

/-- Every call of the frame succeeds: no test after a call of the frame fails. -/
def FrameSucceeds (st : LoopState) (inp : FrameInput) : Prop :=
  ∀ c ∈ frameCalls st inp, c.failed = false

instance (st : LoopState) (inp : FrameInput) : Decidable (FrameSucceeds st inp) :=
  inferInstanceAs (Decidable (∀ c ∈ frameCalls st inp, c.failed = false))

/-! ## Concrete inputs -/

/-- Statuses of a frame in which every OpenCL call returns `CL_SUCCESS`. -/
def FrameCodes.allSuccess : FrameCodes :=
  ⟨0, 0, 0, 0, 0, 0, 0, 0, 0, 0, 0, 0⟩

/-- A startup in which every call succeeds and the device reports the extension string
"cl_khr_gl_sharing " (size 19 with the terminating NUL), the first tick reading being
`ticks`. -/
def Setup.good (ticks : Nat) : Setup :=
  { windowOk := true, glContextOk := true, glewOk := true, shadersSupported := true,
    vertexShaderOk := true, geometryShaderOk := true, fragmentShaderOk := true,
    programOk := true, windowWidth := 1440, windowHeight := 810,
    codePlatformIDs := 0, codeDeviceIDs := 0, codeExtensionsSize := 0,
    extensionSize := 19, codeExtensions := 0,
    extensions := GL_SHARING_EXTENSION ++ [' ', Char.ofNat 0],
    codeCreateContext := 0, codeCreateCommandQueue := 0, codeCreateProgram := 0,
    codeBuildProgram := 0, codeCreateKernelInit := 0, codeInitArg0 := 0,
    codeInitAcquire := 0, codeInitEnqueue := 0, codeInitRelease := 0, codeInitFinish := 0,
    codeCreateKernelSpawn := 0, spawnParticleKernelWorkGroupSize := 256,
    codeSpawnArg0 := 0, codeSpawnArg1 := 0, codeCreateKernelUpdate := 0,
    codeUpdateArg0 := 0, codeCreateKernelDeath := 0, codeDeathArg0 := 0,
    ticks := ticks }

/-- A frame without events in which every call succeeds and the tick counter reads
`ticks` at the end. -/
def FrameInput.quiet (ticks : Nat) : FrameInput :=
  { events := [], codes := FrameCodes.allSuccess, spawnSeed := 41, updateSeed := 18467,
    ticks := ticks }

/-- A frame without events in which `clEnqueueAcquireGLObjects` returns
`CL_OUT_OF_RESOURCES` (-5). -/
def FrameInput.acquireFails (ticks : Nat) : FrameInput :=
  { events := [], codes := { FrameCodes.allSuccess with acquire := -5 }, spawnSeed := 41,
    updateSeed := 18467, ticks := ticks }

/-- A frame in which `SDL_QUIT` is polled and `clEnqueueAcquireGLObjects` returns
`CL_OUT_OF_RESOURCES` (-5). -/
def FrameInput.quitAndAcquireFails (ticks : Nat) : FrameInput :=
  { events := [Event.quit], codes := { FrameCodes.allSuccess with acquire := -5 },
    spawnSeed := 41, updateSeed := 18467, ticks := ticks }

/-- A frame without events in which every call succeeds up to the submission of the
update kernel (line 494), which returns `CL_OUT_OF_RESOURCES` (-5). -/
def FrameInput.updateEnqueueFails (ticks : Nat) : FrameInput :=
  { events := [], codes := { FrameCodes.allSuccess with updateEnqueue := -5 },
    spawnSeed := 41, updateSeed := 18467, ticks := ticks }

/-- A frame without events, run with a positive spawn budget, in which the binding of
the seed succeeds and the binding of the next argument of the spawn kernel (line 480)
returns `CL_OUT_OF_RESOURCES` (-5). -/
def FrameInput.spawnArg4Fails (ticks : Nat) : FrameInput :=
  { events := [], codes := { FrameCodes.allSuccess with spawnArg4 := -5 },
    spawnSeed := 41, updateSeed := 18467, ticks := ticks }

/-- A startup in which every call succeeds and the device reports the extension string
"cl_khr_fp64 cl_khr_icd ", which does not name the sharing extension. -/
def Setup.withoutSharing : Setup :=
  { Setup.good 1000 with
    extensionSize := 24
    extensions := ['c', 'l', '_', 'k', 'h', 'r', '_', 'f', 'p', '6', '4', ' ',
      'c', 'l', '_', 'k', 'h', 'r', '_', 'i', 'c', 'd', ' ', Char.ofNat 0] }

/-- A startup in which every call succeeds and the device reports the extension string
"cl_khr_gl_sharing", without a space after the name. -/
def Setup.sharingLast : Setup :=
  { Setup.good 1000 with
    extensionSize := 18
    extensions := GL_SHARING_EXTENSION ++ [Char.ofNat 0] }

/-- Three frames in which every call succeeds; the second and third dispatch the spawn
kernel, with the `rand()` values 26500 and 15724. -/
def seedFrames : List FrameInput :=
  [ FrameInput.quiet 1005,
    { FrameInput.quiet 1010 with spawnSeed := 26500 },
    { FrameInput.quiet 1015 with spawnSeed := 15724 } ]

end GLCLParticles

namespace GLCLParticles

/-! ## Rounding to binary32 -/

theorem excessBitsAux_spec (fuel : Nat) :
    ∀ n, n < 2 ^ 24 * 2 ^ fuel → 2 ^ 24 ≤ n →
      1 ≤ excessBitsAux fuel n ∧ 2 ^ 23 * 2 ^ excessBitsAux fuel n ≤ n ∧
        n < 2 ^ 24 * 2 ^ excessBitsAux fuel n := by
  induction fuel with
  | zero =>
    intro n h1 h2
    simp at h1
    omega
  | succ f ih =>
    intro n h1 h2
    have hlt : ¬ n < 2 ^ 24 := by omega
    have hfuel : n / 2 < 2 ^ 24 * 2 ^ f := by
      have := pow_succ 2 f
      omega
    by_cases hsmall : n / 2 < 2 ^ 24
    · have h0 : excessBitsAux f (n / 2) = 0 := by
        cases f with
        | zero => rfl
        | succ g => simp only [excessBitsAux, hsmall, if_true]
      simp only [excessBitsAux, hlt, if_false, h0]
      norm_num
      omega
    · obtain ⟨ih1, ih2, ih3⟩ := ih (n / 2) hfuel (by omega)
      simp only [excessBitsAux, hlt, if_false]
      have e : (2 : Nat) ^ (excessBitsAux f (n / 2) + 1) = 2 * 2 ^ excessBitsAux f (n / 2) := by
        rw [pow_succ]; ring
      rw [e]
      omega

theorem excessBits_spec (n : Nat) (h : 2 ^ 24 ≤ n) :
    1 ≤ excessBits n ∧ 2 ^ 23 * 2 ^ excessBits n ≤ n ∧ n < 2 ^ 24 * 2 ^ excessBits n := by
  apply excessBitsAux_spec n n _ h
  have h1 : n < 2 ^ n := Nat.lt_two_pow n
  have h2 : 0 < 2 ^ n := Nat.pos_of_ne_zero (by positivity)
  omega

/-- The relative error of rounding to 24 significant bits is at most `2 ^ (-24)`. -/
theorem roundSig24_error (n : Nat) :
    (2 ^ 24 - 1) * n ≤ 2 ^ 24 * roundSig24 n ∧ 2 ^ 24 * roundSig24 n ≤ (2 ^ 24 + 1) * n := by
  unfold roundSig24
  by_cases hn : n < 2 ^ 24
  · simp only [hn, if_true]
    omega
  · simp only [hn, if_false]
    obtain ⟨h1, h2, h3⟩ := excessBits_spec n (by omega)
    obtain ⟨k, hk⟩ : ∃ k, excessBits n = k + 1 := ⟨excessBits n - 1, by omega⟩
    have hP : (2 : Nat) ^ (k + 1) = 2 * 2 ^ k := by rw [pow_succ]; ring
    have hdm := Nat.div_add_mod n (2 ^ (k + 1))
    have hr : n % 2 ^ (k + 1) < 2 ^ (k + 1) := Nat.mod_lt _ (by positivity)
    rw [hk] at h2 h3 ⊢
    simp only [Nat.add_sub_cancel]
    generalize hq : 2 ^ (k + 1) * (n / 2 ^ (k + 1)) = m at hdm
    have hm : n / 2 ^ (k + 1) * 2 ^ (k + 1) = m := by rw [Nat.mul_comm]; exact hq
    have hm1 : (n / 2 ^ (k + 1) + 1) * 2 ^ (k + 1) = m + 2 ^ (k + 1) := by
      rw [Nat.add_mul, hm, Nat.one_mul]
    split
    · rename_i hup
      rw [hm1]
      have : 2 ^ k ≤ n % 2 ^ (k + 1) := by
        rcases hup with h | ⟨h, _⟩ <;> omega
      omega
    · rename_i hdown
      rw [hm]
      have : n % 2 ^ (k + 1) ≤ 2 ^ k := by
        by_contra hc
        exact hdown (Or.inl (by omega))
      omega

theorem roundSig24_small (n : Nat) (h : n < 2 ^ 24) : roundSig24 n = n := by
  unfold roundSig24
  simp only [h, if_true]

theorem exactSpawnBudget_eq (d : Nat) : exactSpawnBudget d = ((200 * d : Nat) : Int) := by
  unfold exactSpawnBudget particleSpawnRate
  congr 1
  omega

/-- The binary32 product that is rounded up to the spawn budget lies within one unit of
`200 * deltaTime` for frames of up to 20 seconds. -/
theorem spawn_product_bounds (d : Nat) (h : d ≤ 20000) :
    200 * d * secScale ≤ roundSig24 (particleSpawnRate * toSeconds d) + (secScale - 1) ∧
      roundSig24 (particleSpawnRate * toSeconds d) ≤ (200 * d + 1) * secScale := by
  unfold toSeconds
  rw [roundSig24_small d (by omega)]
  obtain ⟨a1, a2⟩ := roundSig24_error (d * milliNum)
  obtain ⟨b1, b2⟩ := roundSig24_error (particleSpawnRate * roundSig24 (d * milliNum))
  simp only [milliNum, particleSpawnRate, secScale] at *
  generalize roundSig24 (200000 * roundSig24 (d * 8589935)) = p at *
  generalize roundSig24 (d * 8589935) = x at *
  norm_num at *
  omega

theorem numParticlesToSpawn_bounds (d : Nat) (h : d ≤ 20000) :
    exactSpawnBudget d ≤ numParticlesToSpawn d ∧
      numParticlesToSpawn d ≤ exactSpawnBudget d + 1 := by
  obtain ⟨h1, h2⟩ := spawn_product_bounds d h
  rw [exactSpawnBudget_eq]
  unfold numParticlesToSpawn numParticlesToSpawnOf ceilToInt
  generalize roundSig24 (particleSpawnRate * toSeconds d) = p at *
  simp only [secScale] at *
  have hc1 : 200 * d ≤ (p + (2 ^ 33 - 1)) / 2 ^ 33 := by
    rw [Nat.le_div_iff_mul_le (by norm_num)]
    exact h1
  have hc2 : (p + (2 ^ 33 - 1)) / 2 ^ 33 ≤ 200 * d + 1 := by
    have : (p + (2 ^ 33 - 1)) / 2 ^ 33 < 200 * d + 2 := by
      rw [Nat.div_lt_iff_lt_mul (by norm_num)]
      omega
    omega
  have hlt : (p + (2 ^ 33 - 1)) / 2 ^ 33 < 2 ^ 31 := by
    have : 200 * d + 1 < 2 ^ 31 := by norm_num; omega
    omega
  simp only [hlt, if_true]
  constructor
  · exact_mod_cast hc1
  · exact_mod_cast hc2

/-! ## Straight-line code with tests -/

theorem runCalls_of_succeed (cs : List Call) (h : ∀ c ∈ cs, c.failed = false) :
    runCalls cs = (cs.map Call.cmd, Ending.completed) := by
  induction cs with
  | nil => rfl
  | cons c cs ih =>
    have hc : c.failed = false := h c (List.mem_cons_self _ _)
    have ih1 := ih (fun x hx => h x (List.mem_cons_of_mem _ hx))
    simp [runCalls, hc, ih1]

theorem runCalls_cut (pre : List Call) (c : Call) (post : List Call)
    (hpre : ∀ x ∈ pre, x.failed = false) (hc : c.failed = true) :
    runCalls (pre ++ c :: post) =
      (pre.map Call.cmd ++ c.cmd :: (if c.trap then [Cmd.api Api.DEBUG_BREAK] else []),
        if c.trap then Ending.trapped else Ending.returned) := by
  induction pre with
  | nil =>
    by_cases ht : c.trap = true
    · simp [runCalls, hc, ht]
    · simp [runCalls, hc, ht]
  | cons x xs ih =>
    have hx : x.failed = false := hpre x (List.mem_cons_self _ _)
    have ih1 := ih (fun y hy => hpre y (List.mem_cons_of_mem _ hy))
    simp [runCalls, hx, ih1]

theorem runCalls_cases (cs : List Call) :
    (∀ c ∈ cs, c.failed = false) ∨
      ∃ pre c post, cs = pre ++ c :: post ∧ (∀ x ∈ pre, x.failed = false) ∧
        c.failed = true := by
  induction cs with
  | nil => left; simp
  | cons c cs ih =>
    by_cases hc : c.failed = true
    · right
      exact ⟨[], c, cs, rfl, by simp, hc⟩
    · have hc0 : c.failed = false := by simpa using hc
      rcases ih with h | ⟨pre, d, post, h1, h2, h3⟩
      · left
        intro x hx
        rcases List.mem_cons.1 hx with rfl | hx
        · exact hc0
        · exact h x hx
      · right
        refine ⟨c :: pre, d, post, by simp [h1], ?_, h3⟩
        intro x hx
        rcases List.mem_cons.1 hx with rfl | hx
        · exact hc0
        · exact h2 x hx

theorem runCalls_ok_iff (cs : List Call) :
    (runCalls cs).2 = Ending.completed ↔ ∀ c ∈ cs, c.failed = false := by
  constructor
  · intro h
    rcases runCalls_cases cs with h1 | ⟨pre, c, post, h1, h2, h3⟩
    · exact h1
    · rw [h1, runCalls_cut pre c post h2 h3] at h
      by_cases ht : c.trap = true
      · simp [ht] at h
      · simp [ht] at h
  · intro h
    rw [runCalls_of_succeed cs h]

/-- A sequence in which every failure path starts with `DEBUG_BREAK()` is completed or
trapped; it never returns `EXIT_FAILURE`. -/
theorem runCalls_completed_or_trapped (cs : List Call)
    (h : ∀ c ∈ cs, c.failed = true → c.trap = true) :
    (runCalls cs).2 = Ending.completed ∨ (runCalls cs).2 = Ending.trapped := by
  rcases runCalls_cases cs with h1 | ⟨pre, c, post, h1, h2, h3⟩
  · left
    rw [runCalls_of_succeed cs h1]
  · right
    have ht : c.trap = true := h c (by rw [h1]; simp) h3
    rw [h1, runCalls_cut pre c post h2 h3]
    simp [ht]

/-- A sequence with a failing call, in which every failure path starts with
`DEBUG_BREAK()`, is trapped. -/
theorem runCalls_trapped_of_failed (cs : List Call)
    (h : ∀ c ∈ cs, c.failed = true → c.trap = true) (hf : ¬ ∀ c ∈ cs, c.failed = false) :
    (runCalls cs).2 = Ending.trapped := by
  rcases runCalls_completed_or_trapped cs h with h1 | h1
  · exact absurd ((runCalls_ok_iff cs).1 h1) hf
  · exact h1

/-! ## Ownership -/

theorem ownershipRespected_append (a b : List Cmd) :
    ∀ o, ownershipRespected o (a ++ b) =
      (ownershipRespected o a && ownershipRespected (ownerAfter o a) b) := by
  induction a with
  | nil => intro o; simp [ownershipRespected, ownerAfter]
  | cons c cs ih => intro o; simp [ownershipRespected, ownerAfter, ih, Bool.and_assoc]

theorem ownerAfter_append (a b : List Cmd) :
    ∀ o, ownerAfter o (a ++ b) = ownerAfter (ownerAfter o a) b := by
  induction a with
  | nil => intro o; rfl
  | cons c cs ih => intro o; simp [ownerAfter, ih]

/-- A sequence of calls whose full command list respects the ownership protocol respects
it also when a test cuts it short. -/
theorem ownershipRespected_runCalls (cs : List Call) :
    ∀ o, ownershipRespected o (cs.map Call.cmd) = true →
      ownershipRespected o (runCalls cs).1 = true := by
  induction cs with
  | nil => intro o _; rfl
  | cons c cs ih =>
    intro o h
    simp only [List.map_cons, ownershipRespected, Bool.and_eq_true] at h
    by_cases hc : c.failed = true
    · rw [runCalls, if_pos hc]
      by_cases ht : c.trap = true
      · have hd : ∀ o', ownerOk o' (Cmd.api Api.DEBUG_BREAK) = true := fun _ => rfl
        rw [if_pos ht]
        simp [ownershipRespected, h.1, hd]
      · rw [if_neg ht]
        simp [ownershipRespected, h.1]
    · rw [runCalls, if_neg hc]
      simp [ownershipRespected, h.1, ih _ h.2]

theorem eventCalls_owner (es : List Event) :
    ∀ o, ownershipRespected o ((eventCalls es).map Call.cmd) = true ∧
      ownerAfter o ((eventCalls es).map Call.cmd) = o := by
  induction es with
  | nil => intro o; exact ⟨rfl, rfl⟩
  | cons e es ih =>
    intro o
    cases e <;> simp [eventCalls, ih, ownershipRespected, ownerAfter, Call.plain, ownerOk,
      ownerNext]

theorem frameCalls_owner (st : LoopState) (inp : FrameInput) :
    ownershipRespected Owner.graphics ((frameCalls st inp).map Call.cmd) = true ∧
      ownerAfter Owner.graphics ((frameCalls st inp).map Call.cmd) = Owner.graphics := by
  unfold frameCalls
  generalize toSeconds st.t1 = ct
  generalize toSeconds st.deltaTime = dt
  generalize numParticlesToSpawnOf dt = K
  unfold frameBody
  simp only [List.map_append, ownershipRespected_append, ownerAfter_append, eventCalls_owner]
  unfold spawnCalls
  split <;> exact ⟨rfl, rfl⟩

theorem frame_trace_of_ok (st : LoopState) (inp : FrameInput)
    (h : (frame st inp).ending = Ending.completed) :
    (frame st inp).trace = (frameCalls st inp).map Call.cmd := by
  have h1 : ∀ c ∈ frameCalls st inp, c.failed = false := (runCalls_ok_iff _).1 h
  show (runCalls (frameCalls st inp)).1 = _
  rw [runCalls_of_succeed _ h1]

theorem frame_ok_iff (st : LoopState) (inp : FrameInput) :
    (frame st inp).ending = Ending.completed ↔ FrameSucceeds st inp :=
  runCalls_ok_iff _

theorem eventCalls_plain (es : List Event) : ∀ c ∈ eventCalls es, c.failed = false := by
  induction es with
  | nil => intro c hc; simp [eventCalls] at hc
  | cons e es ih =>
    intro c hc
    cases e with
    | windowResized w h =>
      simp only [eventCalls, List.mem_cons] at hc
      rcases hc with rfl | hc
      · rfl
      · exact ih c hc
    | quit => exact ih c (by simpa [eventCalls] using hc)
    | keyDown sym => exact ih c (by simpa [eventCalls] using hc)
    | other => exact ih c (by simpa [eventCalls] using hc)

theorem checked_failed (cmd : Cmd) (code : Int) :
    (Call.checked cmd code).failed = false ↔ code = CL_SUCCESS := by
  simp [Call.checked]

/-- Every OpenCL call of the body of the loop is tested: the calls of a frame all succeed
exactly when every status returned in the frame is `CL_SUCCESS`, the four calls of the
spawn block being made only when the budget is positive. -/
theorem frameBody_succeeds_iff (ct dt : Nat) (K : Int) (inp : FrameInput) :
    (∀ c ∈ frameBody ct dt K inp, c.failed = false) ↔
      inp.codes.acquire = CL_SUCCESS ∧
        (0 < K →
          inp.codes.spawnArg2 = CL_SUCCESS ∧ inp.codes.spawnArg3 = CL_SUCCESS ∧
            inp.codes.spawnArg4 = CL_SUCCESS ∧ inp.codes.spawnEnqueue = CL_SUCCESS) ∧
        inp.codes.updateArg1 = CL_SUCCESS ∧ inp.codes.updateArg2 = CL_SUCCESS ∧
        inp.codes.updateEnqueue = CL_SUCCESS ∧ inp.codes.deathArg1 = CL_SUCCESS ∧
        inp.codes.deathEnqueue = CL_SUCCESS ∧ inp.codes.release = CL_SUCCESS ∧
        inp.codes.finish = CL_SUCCESS := by
  have hev := eventCalls_plain inp.events
  have hr : ∀ c ∈ renderCmds.map Call.plain, c.failed = false := by
    intro c hc
    simp only [List.mem_map] at hc
    obtain ⟨x, _, rfl⟩ := hc
    rfl
  unfold frameBody
  simp only [List.forall_mem_append]
  have hs : (∀ c ∈ spawnCalls K ct inp, c.failed = false) ↔
      (0 < K →
          inp.codes.spawnArg2 = CL_SUCCESS ∧ inp.codes.spawnArg3 = CL_SUCCESS ∧
            inp.codes.spawnArg4 = CL_SUCCESS ∧ inp.codes.spawnEnqueue = CL_SUCCESS) := by
    unfold spawnCalls
    by_cases hK : 0 < K
    · rw [if_pos hK]
      simp [checked_failed, hK]
    · rw [if_neg hK]
      simp [hK]
  have hu : (∀ c ∈ updateCalls ct dt inp, c.failed = false) ↔
      (inp.codes.updateArg1 = CL_SUCCESS ∧ inp.codes.updateArg2 = CL_SUCCESS ∧
        inp.codes.updateEnqueue = CL_SUCCESS ∧ inp.codes.deathArg1 = CL_SUCCESS ∧
        inp.codes.deathEnqueue = CL_SUCCESS ∧ inp.codes.release = CL_SUCCESS ∧
        inp.codes.finish = CL_SUCCESS) := by
    unfold updateCalls
    simp [checked_failed]
  have ha : (∀ c ∈ [Call.plain (Cmd.api Api.SDL_GetKeyboardState),
      Call.plain (Cmd.api Api.glFinish),
      Call.checked (Cmd.api Api.clEnqueueAcquireGLObjects) inp.codes.acquire],
        c.failed = false) ↔ inp.codes.acquire = CL_SUCCESS := by
    simp [checked_failed, Call.plain]
  rw [hs, hu, ha]
  constructor
  · rintro ⟨⟨⟨⟨_, a⟩, b⟩, c⟩, _⟩
    exact ⟨a, b, c⟩
  · rintro ⟨a, b, c⟩
    exact ⟨⟨⟨⟨hev, a⟩, b⟩, c⟩, hr⟩

/-- Every test in the body of the loop is a `CHECK_ERROR_CODE`: a failing call of a frame
is a call checked against `CL_SUCCESS` whose status is another code. -/
theorem frameBody_failed_checked (ct dt : Nat) (K : Int) (inp : FrameInput) :
    ∀ c ∈ frameBody ct dt K inp, c.failed = true →
      ∃ code, c = Call.checked c.cmd code ∧ code ≠ CL_SUCCESS := by
  have key : ∀ cmd code, (Call.checked cmd code).failed = true →
      ∃ code1, Call.checked cmd code = Call.checked (Call.checked cmd code).cmd code1 ∧
        code1 ≠ CL_SUCCESS := by
    intro cmd code hf
    exact ⟨code, rfl, by simpa [Call.checked] using hf⟩
  intro c hc hf
  unfold frameBody at hc
  simp only [List.mem_append] at hc
  rcases hc with (((hc | hc) | hc) | hc) | hc
  · rw [eventCalls_plain _ c hc] at hf
    cases hf
  · simp only [List.mem_cons, List.mem_singleton, List.not_mem_nil, or_false] at hc
    rcases hc with rfl | rfl | rfl
    · cases hf
    · cases hf
    · exact key _ _ hf
  · unfold spawnCalls at hc
    split at hc
    · simp only [List.mem_cons, List.mem_singleton, List.not_mem_nil, or_false] at hc
      rcases hc with rfl | rfl | rfl | rfl <;> exact key _ _ hf
    · simp at hc
  · unfold updateCalls at hc
    simp only [List.mem_cons, List.mem_singleton, List.not_mem_nil, or_false] at hc
    rcases hc with rfl | rfl | rfl | rfl | rfl | rfl | rfl <;> exact key _ _ hf
  · simp only [List.mem_map] at hc
    obtain ⟨x, _, rfl⟩ := hc
    cases hf

/-- A failing call of a frame has `DEBUG_BREAK()` on its failure path. -/
theorem frameBody_failed_trap (ct dt : Nat) (K : Int) (inp : FrameInput) :
    ∀ c ∈ frameBody ct dt K inp, c.failed = true → c.trap = true := by
  intro c hc hf
  obtain ⟨code, h, _⟩ := frameBody_failed_checked ct dt K inp c hc hf
  rw [h]
  rfl

theorem frame_ending_cases (st : LoopState) (inp : FrameInput) :
    (frame st inp).ending = Ending.completed ∨ (frame st inp).ending = Ending.trapped :=
  runCalls_completed_or_trapped _ (frameBody_failed_trap _ _ _ inp)

theorem frame_trapped_of_failed (st : LoopState) (inp : FrameInput)
    (h : ¬ FrameSucceeds st inp) : (frame st inp).ending = Ending.trapped :=
  runCalls_trapped_of_failed _ (frameBody_failed_trap _ _ _ inp) h

theorem runLoop_completed (st : LoopState) (inp : FrameInput) (rest : List FrameInput)
    (hl : st.loop = true) (hE : (frame st inp).ending = Ending.completed) :
    runLoop st (inp :: rest) =
      ⟨(frame st inp).trace ++ (runLoop (frame st inp).next rest).trace,
        (runLoop (frame st inp).next rest).exit,
        st :: (runLoop (frame st inp).next rest).frames,
        (runLoop (frame st inp).next rest).trapped⟩ := by
  rw [runLoop, if_pos hl, hE]

theorem runLoop_trapped (st : LoopState) (inp : FrameInput) (rest : List FrameInput)
    (hl : st.loop = true) (hE : (frame st inp).ending ≠ Ending.completed) :
    runLoop st (inp :: rest) = ⟨(frame st inp).trace, none, [st], true⟩ := by
  rcases frame_ending_cases st inp with h | h
  · exact absurd h hE
  · rw [runLoop, if_pos hl, h]

theorem runLoop_stopped (st : LoopState) (inputs : List FrameInput) (h : st.loop = false) :
    runLoop st inputs = ⟨shutdownCmds, some EXIT_SUCCESS, [], false⟩ := by
  cases inputs with
  | nil => simp [runLoop, h]
  | cons inp rest => simp [runLoop, h]

theorem main_of_startup_failed (s : Setup) (inputs : List FrameInput)
    (h : (runCalls (startupCalls s)).2 ≠ Ending.completed) :
    main s inputs =
      ⟨(runCalls (startupCalls s)).1,
        if (runCalls (startupCalls s)).2 = Ending.trapped then none else some EXIT_FAILURE, [],
        decide ((runCalls (startupCalls s)).2 = Ending.trapped)⟩ := by
  unfold main
  cases h1 : (runCalls (startupCalls s)).2
  · exact absurd h1 h
  · simp
  · simp

theorem main_of_no_sharing (s : Setup) (inputs : List FrameInput)
    (h1 : (runCalls (startupCalls s)).2 = Ending.completed) (h2 : sharingSupported s = false) :
    main s inputs = ⟨(runCalls (startupCalls s)).1, some EXIT_FAILURE, [], false⟩ := by
  unfold main
  rw [h1]
  simp [h2]

theorem main_of_setup_failed (s : Setup) (inputs : List FrameInput)
    (h1 : (runCalls (startupCalls s)).2 = Ending.completed) (h2 : sharingSupported s = true)
    (h3 : (runCalls (computeSetupCalls s)).2 ≠ Ending.completed) :
    main s inputs =
      ⟨(runCalls (startupCalls s)).1 ++ (runCalls (computeSetupCalls s)).1,
        if (runCalls (computeSetupCalls s)).2 = Ending.trapped then none else some EXIT_FAILURE,
        [], decide ((runCalls (computeSetupCalls s)).2 = Ending.trapped)⟩ := by
  unfold main
  rw [h1]
  simp only [h2, if_true]
  cases h4 : (runCalls (computeSetupCalls s)).2
  · exact absurd h4 h3
  · simp
  · simp

theorem main_of_setup (s : Setup) (inputs : List FrameInput)
    (h1 : (runCalls (startupCalls s)).2 = Ending.completed) (h2 : sharingSupported s = true)
    (h3 : (runCalls (computeSetupCalls s)).2 = Ending.completed) :
    main s inputs =
      ⟨(runCalls (startupCalls s)).1 ++ (runCalls (computeSetupCalls s)).1 ++
          (runLoop (initialState s) inputs).trace,
        (runLoop (initialState s) inputs).exit,
        (runLoop (initialState s) inputs).frames,
        (runLoop (initialState s) inputs).trapped⟩ := by
  unfold main
  rw [h1]
  simp only [h2, if_true]
  rw [h3]

/-- The four ways `main` can go: a startup call fails, the sharing extension is not
found, a call of the compute setup fails, or the loop is entered. -/
theorem main_cases (s : Setup) (inputs : List FrameInput) :
    ((runCalls (startupCalls s)).2 ≠ Ending.completed ∧
        (main s inputs).trace = (runCalls (startupCalls s)).1 ∧ (main s inputs).frames = [] ∧
        (main s inputs).exit ≠ some EXIT_SUCCESS) ∨
      ((runCalls (startupCalls s)).2 = Ending.completed ∧ sharingSupported s = false ∧
        main s inputs = ⟨(runCalls (startupCalls s)).1, some EXIT_FAILURE, [], false⟩) ∨
      ((runCalls (startupCalls s)).2 = Ending.completed ∧
        (main s inputs).trace =
          (startupCalls s).map Call.cmd ++ (runCalls (computeSetupCalls s)).1 ∧
        (main s inputs).frames = [] ∧ (main s inputs).exit ≠ some EXIT_SUCCESS) ∨
      ((runCalls (startupCalls s)).2 = Ending.completed ∧
        main s inputs =
          ⟨(startupCalls s).map Call.cmd ++ (computeSetupCalls s).map Call.cmd ++
              (runLoop (initialState s) inputs).trace,
            (runLoop (initialState s) inputs).exit,
            (runLoop (initialState s) inputs).frames,
            (runLoop (initialState s) inputs).trapped⟩) := by
  have hne : ¬ (some EXIT_FAILURE = some EXIT_SUCCESS) := by decide
  by_cases h1 : (runCalls (startupCalls s)).2 = Ending.completed
  · have e1 : (runCalls (startupCalls s)).1 = (startupCalls s).map Call.cmd := by
      rw [runCalls_of_succeed _ ((runCalls_ok_iff _).1 h1)]
    by_cases h2 : sharingSupported s = true
    · by_cases h3 : (runCalls (computeSetupCalls s)).2 = Ending.completed
      · have e2 : (runCalls (computeSetupCalls s)).1 = (computeSetupCalls s).map Call.cmd := by
          rw [runCalls_of_succeed _ ((runCalls_ok_iff _).1 h3)]
        right; right; right
        refine ⟨h1, ?_⟩
        rw [main_of_setup s inputs h1 h2 h3, e1, e2]
      · right; right; left
        rw [main_of_setup_failed s inputs h1 h2 h3, e1]
        refine ⟨h1, rfl, rfl, ?_⟩
        show (if _ then none else some EXIT_FAILURE) ≠ some EXIT_SUCCESS
        split
        · simp
        · exact hne
    · right; left
      have h2f : sharingSupported s = false := by simpa using h2
      exact ⟨h1, h2f, main_of_no_sharing s inputs h1 h2f⟩
  · left
    rw [main_of_startup_failed s inputs h1]
    refine ⟨h1, rfl, rfl, ?_⟩
    show (if _ then none else some EXIT_FAILURE) ≠ some EXIT_SUCCESS
    split
    · simp
    · exact hne

theorem runLoop_owner (inputs : List FrameInput) :
    ∀ st, ownershipRespected Owner.graphics (runLoop st inputs).trace = true := by
  induction inputs with
  | nil =>
    intro st
    unfold runLoop
    split <;> rfl
  | cons inp rest ih =>
    intro st
    by_cases hl : st.loop = true
    · by_cases hok : (frame st inp).ending = Ending.completed
      · rw [runLoop_completed st inp rest hl hok]
        show ownershipRespected Owner.graphics
          ((frame st inp).trace ++ (runLoop (frame st inp).next rest).trace) = true
        rw [ownershipRespected_append, frame_trace_of_ok st inp hok,
          (frameCalls_owner st inp).1, (frameCalls_owner st inp).2, ih]
        rfl
      · rw [runLoop_trapped st inp rest hl hok]
        exact ownershipRespected_runCalls _ _ (frameCalls_owner st inp).1
    · rw [runLoop_stopped st _ (by simpa using hl)]
      rfl

theorem startupCalls_owner (s : Setup) :
    ownershipRespected Owner.graphics ((startupCalls s).map Call.cmd) = true ∧
      ownerAfter Owner.graphics ((startupCalls s).map Call.cmd) = Owner.graphics := by
  unfold startupCalls
  split <;> exact ⟨rfl, rfl⟩

theorem computeSetupCalls_owner (s : Setup) :
    ownershipRespected Owner.graphics ((computeSetupCalls s).map Call.cmd) = true ∧
      ownerAfter Owner.graphics ((computeSetupCalls s).map Call.cmd) = Owner.graphics :=
  ⟨rfl, rfl⟩

/-- C1: in every execution of `main` (startup with the init pass, then any number of
frames, whether or not a failing call cuts it short), no `glDrawArrays` and no
`clEnqueueAcquireGLObjects` is issued while the buffer is owned by compute, and every
`clEnqueueNDRangeKernel` is issued while it is owned by compute. -/
theorem buffer_ownership_respected (s : Setup) (inputs : List FrameInput) :
    ownershipRespected Owner.graphics (main s inputs).trace = true := by
  have hs := ownershipRespected_runCalls (startupCalls s) Owner.graphics (startupCalls_owner s).1
  rcases main_cases s inputs with ⟨_, h, _⟩ | ⟨_, _, h⟩ | ⟨_, h, _⟩ | ⟨_, h⟩
  · rw [h]
    exact hs
  · rw [h]
    exact hs
  · rw [h, ownershipRespected_append, (startupCalls_owner s).1, (startupCalls_owner s).2]
    simpa using ownershipRespected_runCalls (computeSetupCalls s) Owner.graphics
      (computeSetupCalls_owner s).1
  · rw [h]
    show ownershipRespected Owner.graphics
      ((startupCalls s).map Call.cmd ++ (computeSetupCalls s).map Call.cmd ++
        (runLoop (initialState s) inputs).trace) = true
    rw [ownershipRespected_append, ownershipRespected_append, ownerAfter_append,
      (startupCalls_owner s).1, (startupCalls_owner s).2, (computeSetupCalls_owner s).1,
      (computeSetupCalls_owner s).2, runLoop_owner]
    rfl

/-! ## The commands of one frame -/

theorem eventCalls_viewport (es : List Event) :
    ∀ c ∈ (eventCalls es).map Call.cmd, ∃ w h, c = Cmd.glViewport w h := by
  induction es with
  | nil => intro c hc; simp [eventCalls] at hc
  | cons e es ih =>
    intro c hc
    cases e with
    | windowResized w h =>
      simp only [eventCalls, List.map_cons, List.mem_cons, Call.plain] at hc
      rcases hc with rfl | hc
      · exact ⟨w, h, rfl⟩
      · exact ih c hc
    | quit => exact ih c (by simpa [eventCalls] using hc)
    | keyDown sym => exact ih c (by simpa [eventCalls] using hc)
    | other => exact ih c (by simpa [eventCalls] using hc)

theorem eventCalls_filter (es : List Event) (p : Cmd → Bool)
    (hp : ∀ w h, p (Cmd.glViewport w h) = false) :
    ((eventCalls es).map Call.cmd).filter p = [] := by
  rw [List.filter_eq_nil_iff]
  intro c hc
  obtain ⟨w, h, rfl⟩ := eventCalls_viewport es c hc
  simp [hp]

theorem frameCalls_filter_protocol (st : LoopState) (inp : FrameInput) :
    ((frameCalls st inp).map Call.cmd).filter isProtocolCmd =
      [Cmd.api Api.glFinish, Cmd.api Api.clEnqueueAcquireGLObjects] ++
        (if 0 < numParticlesToSpawn st.deltaTime then
          [Cmd.clEnqueueNDRangeKernel Kernel.spawnParticle NUM_PARTICLES] else []) ++
        [Cmd.clEnqueueNDRangeKernel Kernel.updateParticleState NUM_PARTICLES,
          Cmd.clEnqueueNDRangeKernel Kernel.checkParticleDeath NUM_PARTICLES,
          Cmd.api Api.clEnqueueReleaseGLObjects, Cmd.api Api.clFinish,
          Cmd.glDrawArrays 0 NUM_PARTICLES, Cmd.api Api.SDL_GL_SwapWindow] := by
  unfold frameCalls numParticlesToSpawn
  generalize toSeconds st.t1 = ct
  generalize toSeconds st.deltaTime = dt
  generalize numParticlesToSpawnOf dt = K
  unfold frameBody
  simp only [List.map_append, List.filter_append,
    eventCalls_filter inp.events isProtocolCmd (fun _ _ => rfl)]
  unfold spawnCalls
  split <;> rfl

theorem frameCalls_filter_spawn (st : LoopState) (inp : FrameInput) :
    ((frameCalls st inp).map Call.cmd).filter (usesKernel Kernel.spawnParticle) =
      if 0 < numParticlesToSpawn st.deltaTime then
        [Cmd.clSetKernelArg Kernel.spawnParticle 2
            (ArgVal.int (numParticlesToSpawn st.deltaTime)),
          Cmd.clSetKernelArg Kernel.spawnParticle 3 (ArgVal.int inp.spawnSeed),
          Cmd.clSetKernelArg Kernel.spawnParticle 4 (ArgVal.float (toSeconds st.t1)),
          Cmd.clEnqueueNDRangeKernel Kernel.spawnParticle NUM_PARTICLES]
      else [] := by
  unfold frameCalls numParticlesToSpawn
  generalize toSeconds st.t1 = ct
  generalize toSeconds st.deltaTime = dt
  generalize numParticlesToSpawnOf dt = K
  unfold frameBody
  simp only [List.map_append, List.filter_append,
    eventCalls_filter inp.events (usesKernel Kernel.spawnParticle) (fun _ _ => rfl)]
  unfold spawnCalls
  split <;> rfl

theorem frameCalls_filter_dispatch (st : LoopState) (inp : FrameInput) :
    ((frameCalls st inp).map Call.cmd).filter isDispatch =
      (if 0 < numParticlesToSpawn st.deltaTime then
          [Cmd.clEnqueueNDRangeKernel Kernel.spawnParticle NUM_PARTICLES] else []) ++
        [Cmd.clEnqueueNDRangeKernel Kernel.updateParticleState NUM_PARTICLES,
          Cmd.clEnqueueNDRangeKernel Kernel.checkParticleDeath NUM_PARTICLES] := by
  unfold frameCalls numParticlesToSpawn
  generalize toSeconds st.t1 = ct
  generalize toSeconds st.deltaTime = dt
  generalize numParticlesToSpawnOf dt = K
  unfold frameBody
  simp only [List.map_append, List.filter_append,
    eventCalls_filter inp.events isDispatch (fun _ _ => rfl)]
  unfold spawnCalls
  split <;> rfl

theorem frame_trace_of_succeeds (st : LoopState) (inp : FrameInput)
    (h : FrameSucceeds st inp) :
    (frame st inp).trace = (frameCalls st inp).map Call.cmd :=
  frame_trace_of_ok st inp ((frame_ok_iff st inp).2 h)

/-- Every command issued by a sequence of calls is the command of one of the calls, or the
trap of a failure path. -/
theorem runCalls_mem (cs : List Call) :
    ∀ c ∈ (runCalls cs).1, c ∈ cs.map Call.cmd ∨ c = Cmd.api Api.DEBUG_BREAK := by
  induction cs with
  | nil => intro c hc; simp [runCalls] at hc
  | cons x xs ih =>
    intro c hc
    by_cases hx : x.failed = true
    · rw [runCalls, if_pos hx] at hc
      by_cases ht : x.trap = true
      · rw [if_pos ht] at hc
        simp only [List.mem_cons, List.mem_singleton, List.not_mem_nil, or_false] at hc
        rcases hc with h0 | h0
        · left; simp [h0]
        · right; exact h0
      · rw [if_neg ht] at hc
        simp only [List.mem_singleton] at hc
        left; simp [hc]
    · rw [runCalls, if_neg hx] at hc
      rcases List.mem_cons.1 hc with h0 | h0
      · left; simp [h0]
      · rcases ih c h0 with h | h
        · left; simp [h]
        · right; exact h

/-- C2: in a frame in which every call succeeds, the commands of the buffer protocol are
issued in the order flush, acquire, spawn dispatch (only for a positive budget), update
dispatch, death-check dispatch, release, `clFinish`, draw, present; in particular there
is exactly one acquire and one release. -/
theorem frame_protocol_order (st : LoopState) (inp : FrameInput)
    (h : FrameSucceeds st inp) :
    (frame st inp).trace.filter isProtocolCmd =
        [Cmd.api Api.glFinish, Cmd.api Api.clEnqueueAcquireGLObjects] ++
          (if 0 < numParticlesToSpawn st.deltaTime then
            [Cmd.clEnqueueNDRangeKernel Kernel.spawnParticle NUM_PARTICLES] else []) ++
          [Cmd.clEnqueueNDRangeKernel Kernel.updateParticleState NUM_PARTICLES,
            Cmd.clEnqueueNDRangeKernel Kernel.checkParticleDeath NUM_PARTICLES,
            Cmd.api Api.clEnqueueReleaseGLObjects, Cmd.api Api.clFinish,
            Cmd.glDrawArrays 0 NUM_PARTICLES, Cmd.api Api.SDL_GL_SwapWindow] ∧
      (frame st inp).trace.count (Cmd.api Api.clEnqueueAcquireGLObjects) = 1 ∧
      (frame st inp).trace.count (Cmd.api Api.clEnqueueReleaseGLObjects) = 1 := by
  have key := frameCalls_filter_protocol st inp
  rw [frame_trace_of_succeeds st inp h]
  refine ⟨key, ?_, ?_⟩
  · rw [← List.count_filter (show isProtocolCmd (Cmd.api Api.clEnqueueAcquireGLObjects) = true from rfl),
      key]
    split <;> rfl
  · rw [← List.count_filter (show isProtocolCmd (Cmd.api Api.clEnqueueReleaseGLObjects) = true from rfl),
      key]
    split <;> rfl

theorem frame_protocol_order_witness :
    (frame ⟨1005, 5, true⟩ (FrameInput.quiet 1010)).trace.filter isProtocolCmd =
      [Cmd.api Api.glFinish, Cmd.api Api.clEnqueueAcquireGLObjects,
        Cmd.clEnqueueNDRangeKernel Kernel.spawnParticle NUM_PARTICLES,
        Cmd.clEnqueueNDRangeKernel Kernel.updateParticleState NUM_PARTICLES,
        Cmd.clEnqueueNDRangeKernel Kernel.checkParticleDeath NUM_PARTICLES,
        Cmd.api Api.clEnqueueReleaseGLObjects, Cmd.api Api.clFinish,
        Cmd.glDrawArrays 0 NUM_PARTICLES, Cmd.api Api.SDL_GL_SwapWindow] :=
  (frame_protocol_order ⟨1005, 5, true⟩ (FrameInput.quiet 1010) (by decide)).1

theorem filter_eq_nil_of_frameCalls (st : LoopState) (inp : FrameInput) (p : Cmd → Bool)
    (h : ((frameCalls st inp).map Call.cmd).filter p = [])
    (hd : p (Cmd.api Api.DEBUG_BREAK) = false) :
    (frame st inp).trace.filter p = [] := by
  rw [List.filter_eq_nil_iff] at h ⊢
  intro c hc
  rcases runCalls_mem (frameCalls st inp) c hc with h1 | h1
  · exact h c h1
  · rw [h1, hd]; simp

/-- C4 (the claim as stated fails): in a frame with a positive spawn budget in which
`clEnqueueAcquireGLObjects` fails, no kernel is dispatched at all. -/
theorem no_dispatch_after_failed_acquire :
    0 < numParticlesToSpawn 5 ∧
      (frame ⟨1005, 5, true⟩ (FrameInput.acquireFails 1010)).trace.filter isDispatch = [] := by
  decide

/-- C4 (amended): in a frame in which every call succeeds, the spawn kernel is used exactly
when the budget is positive, and then its count argument is the budget and it is
dispatched once; the update and death-check kernels are dispatched once each. In every
frame, also one cut short by a failing call, a budget that is not positive means that no
spawn argument is bound and no spawn dispatch is enqueued. The budget of a frame with
`deltaTime = 0`, such as the first frame, is 0. -/
theorem spawn_dispatch_iff_budget (st : LoopState) (inp : FrameInput)
    (h : FrameSucceeds st inp) :
    ((frame st inp).trace.filter (usesKernel Kernel.spawnParticle) =
        if 0 < numParticlesToSpawn st.deltaTime then
          [Cmd.clSetKernelArg Kernel.spawnParticle 2
              (ArgVal.int (numParticlesToSpawn st.deltaTime)),
            Cmd.clSetKernelArg Kernel.spawnParticle 3 (ArgVal.int inp.spawnSeed),
            Cmd.clSetKernelArg Kernel.spawnParticle 4 (ArgVal.float (toSeconds st.t1)),
            Cmd.clEnqueueNDRangeKernel Kernel.spawnParticle NUM_PARTICLES]
        else []) ∧
      ((frame st inp).trace.filter isDispatch =
        (if 0 < numParticlesToSpawn st.deltaTime then
            [Cmd.clEnqueueNDRangeKernel Kernel.spawnParticle NUM_PARTICLES] else []) ++
          [Cmd.clEnqueueNDRangeKernel Kernel.updateParticleState NUM_PARTICLES,
            Cmd.clEnqueueNDRangeKernel Kernel.checkParticleDeath NUM_PARTICLES]) ∧
      (∀ other : FrameInput, ¬ 0 < numParticlesToSpawn st.deltaTime →
        (frame st other).trace.filter (usesKernel Kernel.spawnParticle) = []) ∧
      numParticlesToSpawn 0 = 0 ∧
      (∀ s : Setup, numParticlesToSpawn (initialState s).deltaTime = 0) := by
  rw [frame_trace_of_succeeds st inp h]
  have h0 : numParticlesToSpawn 0 = 0 := by decide
  refine ⟨frameCalls_filter_spawn st inp, frameCalls_filter_dispatch st inp, ?_, h0,
    fun _ => h0⟩
  intro other hK
  apply filter_eq_nil_of_frameCalls _ _ _ _ rfl
  rw [frameCalls_filter_spawn, if_neg hK]

theorem spawn_dispatch_iff_budget_witness :
    FrameSucceeds ⟨1005, 5, true⟩ (FrameInput.quiet 1010) ∧
      (frame ⟨1005, 5, true⟩ (FrameInput.quiet 1010)).trace.filter isDispatch =
        [Cmd.clEnqueueNDRangeKernel Kernel.spawnParticle NUM_PARTICLES,
          Cmd.clEnqueueNDRangeKernel Kernel.updateParticleState NUM_PARTICLES,
          Cmd.clEnqueueNDRangeKernel Kernel.checkParticleDeath NUM_PARTICLES] :=
  ⟨by decide, (spawn_dispatch_iff_budget ⟨1005, 5, true⟩ (FrameInput.quiet 1010) (by decide)).2.1⟩

/-! ## Failing calls and the process result -/

theorem runLoop_exit (inputs : List FrameInput) :
    ∀ st,
      ((∃ p ∈ List.zip (runLoop st inputs).frames inputs, ¬ FrameSucceeds p.1 p.2) →
        (runLoop st inputs).trapped = true ∧ (runLoop st inputs).exit = none) ∧
      ((runLoop st inputs).exit = some EXIT_SUCCESS →
        (∀ p ∈ List.zip (runLoop st inputs).frames inputs, FrameSucceeds p.1 p.2) ∧
          (st.loop = false ∨
            ∃ p ∈ List.zip (runLoop st inputs).frames inputs,
              pollEvents p.1.loop p.2.events = false)) ∧
      (runLoop st inputs).exit ≠ some EXIT_FAILURE := by
  have hne : ¬ (some EXIT_SUCCESS = some EXIT_FAILURE) := by decide
  induction inputs with
  | nil =>
    intro st
    unfold runLoop
    by_cases hl : st.loop = true
    · rw [if_pos hl]
      simp
    · rw [if_neg hl]
      simp [hl, hne]
  | cons inp rest ih =>
    intro st
    by_cases hl : st.loop = true
    · by_cases hok : (frame st inp).ending = Ending.completed
      · rw [runLoop_completed st inp rest hl hok]
        have hsucc : FrameSucceeds st inp := (frame_ok_iff st inp).1 hok
        obtain ⟨ih1, ih2, ih3⟩ := ih (frame st inp).next
        refine ⟨?_, ?_, ih3⟩
        · rintro ⟨p, hp, hp2⟩
          simp only [List.zip_cons_cons, List.mem_cons] at hp
          rcases hp with rfl | hp
          · exact absurd hsucc hp2
          · exact ih1 ⟨p, hp, hp2⟩
        · intro hex
          obtain ⟨a, b⟩ := ih2 hex
          constructor
          · intro p hp
            simp only [List.zip_cons_cons, List.mem_cons] at hp
            rcases hp with rfl | hp
            · exact hsucc
            · exact a p hp
          · right
            rcases b with b | ⟨p, hp, hp2⟩
            · exact ⟨(st, inp), by simp, b⟩
            · exact ⟨p, by simp [hp], hp2⟩
      · rw [runLoop_trapped st inp rest hl hok]
        refine ⟨fun _ => ⟨rfl, rfl⟩, fun hex => ?_, ?_⟩
        · cases hex
        · intro hex
          cases hex
    · rw [runLoop_stopped st _ (by simpa using hl)]
      simp [hl, hne]

theorem main_frames_exit (s : Setup) (inputs : List FrameInput) :
    ((∃ p ∈ List.zip (main s inputs).frames inputs, ¬ FrameSucceeds p.1 p.2) →
        (main s inputs).trapped = true ∧ (main s inputs).exit = none) ∧
      ((main s inputs).exit = some EXIT_SUCCESS →
        (∀ p ∈ List.zip (main s inputs).frames inputs, FrameSucceeds p.1 p.2) ∧
          ∃ p ∈ List.zip (main s inputs).frames inputs,
            pollEvents p.1.loop p.2.events = false) := by
  rcases main_cases s inputs with ⟨_, _, h0, h1⟩ | ⟨_, _, h0⟩ | ⟨_, _, h0, h1⟩ | ⟨_, h0⟩
  · rw [h0]
    exact ⟨fun h => by simp at h, fun hex => absurd hex h1⟩
  · rw [h0]
    exact ⟨fun h => by simp at h, fun hex => by cases hex⟩
  · rw [h0]
    exact ⟨fun h => by simp at h, fun hex => absurd hex h1⟩
  · rw [h0]
    obtain ⟨a, b, _⟩ := runLoop_exit inputs (initialState s)
    refine ⟨a, fun hex => ?_⟩
    obtain ⟨b1, b2⟩ := b hex
    refine ⟨b1, ?_⟩
    rcases b2 with b2 | b2
    · exact absurd b2 (by simp [initialState])
    · exact b2

/-- C6 (the claim as stated fails): in a frame whose submission of the update kernel
returns `CL_OUT_OF_RESOURCES`, the frame stops after that call with the `DEBUG_BREAK()`
of `CHECK_ERROR_CODE`, which stops the process: `main` does not return `EXIT_FAILURE`, it
returns no code. -/
theorem failed_call_result_is_not_failure :
    (FrameInput.updateEnqueueFails 1005).codes.updateEnqueue ≠ CL_SUCCESS ∧
      (frame (initialState (Setup.good 1000)) (FrameInput.updateEnqueueFails 1005)).trace =
        [Cmd.api Api.SDL_GetKeyboardState, Cmd.api Api.glFinish,
          Cmd.api Api.clEnqueueAcquireGLObjects,
          Cmd.clSetKernelArg Kernel.updateParticleState 1 (ArgVal.int 18467),
          Cmd.clSetKernelArg Kernel.updateParticleState 2 (ArgVal.float 0),
          Cmd.clEnqueueNDRangeKernel Kernel.updateParticleState NUM_PARTICLES,
          Cmd.api Api.DEBUG_BREAK] ∧
      (main (Setup.good 1000)
        [FrameInput.updateEnqueueFails 1005, FrameInput.quiet 1010]).exit ≠
          some EXIT_FAILURE ∧
      (main (Setup.good 1000)
        [FrameInput.updateEnqueueFails 1005, FrameInput.quiet 1010]).exit = none ∧
      (main (Setup.good 1000)
        [FrameInput.updateEnqueueFails 1005, FrameInput.quiet 1010]).trapped = true := by
  decide

/-- C6 (amended): every OpenCL call of a frame is tested, so the calls of a frame all
succeed exactly when every status returned in it is `CL_SUCCESS`; when one is not, the
first failing call is a checked call, the frame issues nothing after it but the
`DEBUG_BREAK()` of `CHECK_ERROR_CODE`, no further frame starts whatever frame inputs
remain, and the process is stopped by that trap, so that `main` returns no code; for
`main`, a started frame with a failing call gives the trap and no code, and
`EXIT_SUCCESS` is returned only if every call of every started frame succeeded and the
flag `loop` was cleared by a polled event. -/
theorem failing_call_traps (st : LoopState) (inp : FrameInput) (rest : List FrameInput)
    (hloop : st.loop = true) :
    (FrameSucceeds st inp ↔
        inp.codes.acquire = CL_SUCCESS ∧
          (0 < numParticlesToSpawn st.deltaTime →
            inp.codes.spawnArg2 = CL_SUCCESS ∧ inp.codes.spawnArg3 = CL_SUCCESS ∧
              inp.codes.spawnArg4 = CL_SUCCESS ∧ inp.codes.spawnEnqueue = CL_SUCCESS) ∧
          inp.codes.updateArg1 = CL_SUCCESS ∧ inp.codes.updateArg2 = CL_SUCCESS ∧
          inp.codes.updateEnqueue = CL_SUCCESS ∧ inp.codes.deathArg1 = CL_SUCCESS ∧
          inp.codes.deathEnqueue = CL_SUCCESS ∧ inp.codes.release = CL_SUCCESS ∧
          inp.codes.finish = CL_SUCCESS) ∧
      (¬ FrameSucceeds st inp →
        (∃ pre cmd code post,
          frameCalls st inp = pre ++ Call.checked cmd code :: post ∧
            (∀ x ∈ pre, x.failed = false) ∧ code ≠ CL_SUCCESS ∧
            (frame st inp).trace = pre.map Call.cmd ++ [cmd, Cmd.api Api.DEBUG_BREAK]) ∧
          runLoop st (inp :: rest) = ⟨(frame st inp).trace, none, [st], true⟩) ∧
      (∀ (s : Setup) (inputs : List FrameInput),
        (∃ p ∈ List.zip (main s inputs).frames inputs, ¬ FrameSucceeds p.1 p.2) →
          (main s inputs).trapped = true ∧ (main s inputs).exit = none) ∧
      (∀ (s : Setup) (inputs : List FrameInput),
        (main s inputs).exit = some EXIT_SUCCESS →
          (∀ p ∈ List.zip (main s inputs).frames inputs, FrameSucceeds p.1 p.2) ∧
            ∃ p ∈ List.zip (main s inputs).frames inputs,
              pollEvents p.1.loop p.2.events = false) := by
  refine ⟨?_, ?_, fun s inputs => (main_frames_exit s inputs).1,
    fun s inputs => (main_frames_exit s inputs).2⟩
  · unfold FrameSucceeds frameCalls numParticlesToSpawn
    exact frameBody_succeeds_iff _ _ _ _
  · intro hf
    have hE : (frame st inp).ending ≠ Ending.completed :=
      fun hE => hf ((frame_ok_iff st inp).1 hE)
    refine ⟨?_, runLoop_trapped st inp rest hloop hE⟩
    rcases runCalls_cases (frameCalls st inp) with h1 | ⟨pre, c, post, h1, h2, h3⟩
    · exact absurd h1 hf
    · have hc : c ∈ frameCalls st inp := by rw [h1]; simp
      obtain ⟨code, e, hcode⟩ := frameBody_failed_checked _ _ _ inp c hc h3
      have hrun := runCalls_cut pre c post h2 h3
      refine ⟨pre, c.cmd, code, post, by rw [h1, ← e], h2, hcode, ?_⟩
      show (runCalls (frameCalls st inp)).1 = _
      rw [h1, hrun, e]
      rfl

theorem failing_call_traps_witness :
    (⟨1005, 5, true⟩ : LoopState).loop = true ∧
      ¬ FrameSucceeds ⟨1005, 5, true⟩ (FrameInput.updateEnqueueFails 1010) ∧
      runLoop ⟨1005, 5, true⟩ [FrameInput.updateEnqueueFails 1010, FrameInput.quiet 1020] =
        ⟨(frame ⟨1005, 5, true⟩ (FrameInput.updateEnqueueFails 1010)).trace, none,
          [⟨1005, 5, true⟩], true⟩ :=
  ⟨rfl, by decide,
    ((failing_call_traps ⟨1005, 5, true⟩ (FrameInput.updateEnqueueFails 1010)
      [FrameInput.quiet 1020] rfl).2.1 (by decide)).2⟩

/-! ## Synchronisation points -/

theorem acquireAfterFlush_runCalls (cs : List Call) :
    ∀ b, acquireAfterFlush b (cs.map Call.cmd) = true →
      acquireAfterFlush b (runCalls cs).1 = true := by
  induction cs with
  | nil => intro b _; rfl
  | cons c cs ih =>
    intro b h
    simp only [List.map_cons, acquireAfterFlush, Bool.and_eq_true] at h
    by_cases hc : c.failed = true
    · rw [runCalls, if_pos hc]
      by_cases ht : c.trap = true
      · rw [if_pos ht]
        have hd : isAcquire (Cmd.api Api.DEBUG_BREAK) = false := rfl
        simp only [acquireAfterFlush, Bool.and_eq_true, h.1, true_and, hd]
        simp
      · rw [if_neg ht]
        simp only [acquireAfterFlush, Bool.and_eq_true, h.1, true_and]
    · rw [runCalls, if_neg hc]
      simp only [acquireAfterFlush, Bool.and_eq_true, h.1, true_and]
      exact ih _ h.2

theorem acquireAfterFlush_events (es : List Event) (rest : List Cmd) :
    ∀ b, acquireAfterFlush b
        ((eventCalls es).map Call.cmd ++ Cmd.api Api.SDL_GetKeyboardState :: rest) =
      acquireAfterFlush false rest := by
  induction es with
  | nil => intro b; simp [eventCalls, acquireAfterFlush, isAcquire, isFlush]
  | cons e es ih =>
    intro b
    cases e <;> simp [eventCalls, acquireAfterFlush, ih, Call.plain, isAcquire, isFlush]

theorem frameBody_acquireAfterFlush (ct dt : Nat) (K : Int) (inp : FrameInput) :
    acquireAfterFlush false ((frameBody ct dt K inp).map Call.cmd) = true := by
  unfold frameBody
  simp only [List.map_append, List.append_assoc, List.map_cons, List.cons_append,
    List.map_nil, List.nil_append, Call.plain, acquireAfterFlush_events]
  unfold spawnCalls
  split <;> rfl

theorem frameCalls_acquireAfterFlush (st : LoopState) (inp : FrameInput) :
    acquireAfterFlush false ((frameCalls st inp).map Call.cmd) = true := by
  unfold frameCalls
  exact frameBody_acquireAfterFlush _ _ _ _

theorem frameBody_sync_split (ct dt : Nat) (K : Int) (inp : FrameInput) :
    (frameBody ct dt K inp).map Call.cmd =
      ((eventCalls inp.events).map Call.cmd ++
          [Cmd.api Api.SDL_GetKeyboardState, Cmd.api Api.glFinish,
            Cmd.api Api.clEnqueueAcquireGLObjects] ++
          (spawnCalls K ct inp).map Call.cmd ++
          [Cmd.clSetKernelArg Kernel.updateParticleState 1 (ArgVal.int inp.updateSeed),
            Cmd.clSetKernelArg Kernel.updateParticleState 2 (ArgVal.float dt),
            Cmd.clEnqueueNDRangeKernel Kernel.updateParticleState NUM_PARTICLES,
            Cmd.clSetKernelArg Kernel.checkParticleDeath 1 (ArgVal.float ct),
            Cmd.clEnqueueNDRangeKernel Kernel.checkParticleDeath NUM_PARTICLES]) ++
        [Cmd.api Api.clEnqueueReleaseGLObjects, Cmd.api Api.clFinish] ++ renderCmds := by
  unfold frameBody updateCalls
  generalize spawnCalls K ct inp = sc
  generalize eventCalls inp.events = ec
  simp [Call.plain, Call.checked, Function.comp_def]

theorem frameCalls_sync_split (st : LoopState) (inp : FrameInput) :
    (frameCalls st inp).map Call.cmd =
      ((eventCalls inp.events).map Call.cmd ++
          [Cmd.api Api.SDL_GetKeyboardState, Cmd.api Api.glFinish,
            Cmd.api Api.clEnqueueAcquireGLObjects] ++
          (spawnCalls (numParticlesToSpawn st.deltaTime) (toSeconds st.t1) inp).map Call.cmd ++
          [Cmd.clSetKernelArg Kernel.updateParticleState 1 (ArgVal.int inp.updateSeed),
            Cmd.clSetKernelArg Kernel.updateParticleState 2
              (ArgVal.float (toSeconds st.deltaTime)),
            Cmd.clEnqueueNDRangeKernel Kernel.updateParticleState NUM_PARTICLES,
            Cmd.clSetKernelArg Kernel.checkParticleDeath 1 (ArgVal.float (toSeconds st.t1)),
            Cmd.clEnqueueNDRangeKernel Kernel.checkParticleDeath NUM_PARTICLES]) ++
        [Cmd.api Api.clEnqueueReleaseGLObjects, Cmd.api Api.clFinish] ++ renderCmds := by
  unfold frameCalls numParticlesToSpawn
  exact frameBody_sync_split _ _ _ _

/-- C9 (the claim as stated fails): in a frame in which every call succeeds the only
`clFinish` is issued after `clEnqueueReleaseGLObjects`, not before it. -/
theorem finish_follows_release :
    (frame ⟨1005, 5, true⟩ (FrameInput.quiet 1010)).trace.count (Cmd.api Api.clFinish) = 1 ∧
      (frame ⟨1005, 5, true⟩ (FrameInput.quiet 1010)).trace.indexOf
          (Cmd.api Api.clEnqueueReleaseGLObjects) <
        (frame ⟨1005, 5, true⟩ (FrameInput.quiet 1010)).trace.indexOf (Cmd.api Api.clFinish) := by
  decide

theorem frameBody_sync_facts (ct dt : Nat) (K : Int) (inp : FrameInput) :
    ∃ pre, (frameBody ct dt K inp).map Call.cmd =
        pre ++ [Cmd.api Api.clEnqueueReleaseGLObjects, Cmd.api Api.clFinish] ++ renderCmds ∧
      Cmd.clEnqueueNDRangeKernel Kernel.checkParticleDeath NUM_PARTICLES ∈ pre ∧
      Cmd.api Api.clFinish ∉ pre ∧
      Cmd.api Api.clEnqueueReleaseGLObjects ∉ pre ∧
      Cmd.glDrawArrays 0 NUM_PARTICLES ∉ pre := by
  have hsp : ∀ c ∈ (spawnCalls K ct inp).map Call.cmd,
      usesKernel Kernel.spawnParticle c = true := by
    intro c hc
    unfold spawnCalls at hc
    split at hc
    · simp only [List.map_cons, List.map_nil, List.mem_cons, List.mem_singleton,
        List.not_mem_nil, or_false, Call.checked] at hc
      rcases hc with rfl | rfl | rfl | rfl <;> rfl
    · simp at hc
  refine ⟨_, frameBody_sync_split ct dt K inp, ?_, ?_, ?_, ?_⟩
  · simp
  · intro hm
    simp only [List.mem_append, List.mem_cons, List.mem_singleton, List.not_mem_nil,
      or_false] at hm
    rcases hm with ((hm | hm) | hm) | hm
    · obtain ⟨w, hh, e⟩ := eventCalls_viewport _ _ hm
      cases e
    · rcases hm with hm | hm | hm <;> cases hm
    · exact absurd (hsp _ hm) (by decide)
    · rcases hm with hm | hm | hm | hm | hm <;> cases hm
  · intro hm
    simp only [List.mem_append, List.mem_cons, List.mem_singleton, List.not_mem_nil,
      or_false] at hm
    rcases hm with ((hm | hm) | hm) | hm
    · obtain ⟨w, hh, e⟩ := eventCalls_viewport _ _ hm
      cases e
    · rcases hm with hm | hm | hm <;> cases hm
    · exact absurd (hsp _ hm) (by decide)
    · rcases hm with hm | hm | hm | hm | hm <;> cases hm
  · intro hm
    simp only [List.mem_append, List.mem_cons, List.mem_singleton, List.not_mem_nil,
      or_false] at hm
    rcases hm with ((hm | hm) | hm) | hm
    · obtain ⟨w, hh, e⟩ := eventCalls_viewport _ _ hm
      cases e
    · rcases hm with hm | hm | hm <;> cases hm
    · exact absurd (hsp _ hm) (by decide)
    · rcases hm with hm | hm | hm | hm | hm <;> cases hm

/-- C9 (amended): in a frame in which every call succeeds, `clEnqueueReleaseGLObjects` is
directly followed by the only `clFinish` of the frame; every kernel dispatch comes before
this pair and the draw command comes after it. In every frame, also one cut short by a
failing call, each `clEnqueueAcquireGLObjects` comes directly after a `glFinish`. -/
theorem finish_between_release_and_draw (st : LoopState) (inp : FrameInput)
    (h : FrameSucceeds st inp) :
    (∃ pre, (frame st inp).trace =
        pre ++ [Cmd.api Api.clEnqueueReleaseGLObjects, Cmd.api Api.clFinish] ++ renderCmds ∧
        Cmd.clEnqueueNDRangeKernel Kernel.checkParticleDeath NUM_PARTICLES ∈ pre ∧
        Cmd.api Api.clFinish ∉ pre ∧
        Cmd.api Api.clEnqueueReleaseGLObjects ∉ pre ∧
        Cmd.glDrawArrays 0 NUM_PARTICLES ∉ pre) ∧
      renderCmds.filter isDispatch = [] ∧
      Cmd.glDrawArrays 0 NUM_PARTICLES ∈ renderCmds ∧
      (∀ other : FrameInput, acquireAfterFlush false (frame st other).trace = true) := by
  have hd : renderCmds.filter isDispatch = [] := by decide
  have hm : Cmd.glDrawArrays 0 NUM_PARTICLES ∈ renderCmds := by decide
  refine ⟨?_, hd, hm,
    fun other => acquireAfterFlush_runCalls _ _ (frameCalls_acquireAfterFlush st other)⟩
  rw [frame_trace_of_succeeds st inp h]
  unfold frameCalls
  exact frameBody_sync_facts _ _ _ _

theorem finish_between_release_and_draw_witness :
    ∃ pre, (frame ⟨1005, 5, true⟩ (FrameInput.quiet 1010)).trace =
        pre ++ [Cmd.api Api.clEnqueueReleaseGLObjects, Cmd.api Api.clFinish] ++ renderCmds ∧
      Cmd.clEnqueueNDRangeKernel Kernel.checkParticleDeath NUM_PARTICLES ∈ pre ∧
      Cmd.api Api.clFinish ∉ pre ∧
      Cmd.api Api.clEnqueueReleaseGLObjects ∉ pre ∧
      Cmd.glDrawArrays 0 NUM_PARTICLES ∉ pre :=
  (finish_between_release_and_draw ⟨1005, 5, true⟩ (FrameInput.quiet 1010) (by decide)).1

/-! ## Quitting -/

theorem pollEvents_eq (es : List Event) :
    ∀ b, pollEvents b es = (b && !quitPolled es) := by
  induction es with
  | nil => intro b; simp [pollEvents, quitPolled]
  | cons e es ih =>
    intro b
    have hstep : pollEvents b (e :: es) = pollEvents (handleEvent b e) es := rfl
    rw [hstep, ih]
    cases e with
    | quit => simp [handleEvent, quitPolled, isQuitSignal]
    | keyDown sym =>
      by_cases hs : sym = SDLK_ESCAPE
      · simp [handleEvent, quitPolled, isQuitSignal, hs]
      · simp [handleEvent, quitPolled, isQuitSignal, hs]
    | windowResized w h => simp [handleEvent, quitPolled, isQuitSignal]
    | other => simp [handleEvent, quitPolled, isQuitSignal]

theorem runLoop_frames_head (st : LoopState) (inp : FrameInput) (rest : List FrameInput)
    (h : st.loop = true) :
    ∃ tl, (runLoop st (inp :: rest)).frames = st :: tl ∧
      (frame st inp).trace <+: (runLoop st (inp :: rest)).trace := by
  by_cases hok : (frame st inp).ending = Ending.completed
  · rw [runLoop_completed st inp rest h hok]
    exact ⟨_, rfl, List.prefix_append _ _⟩
  · rw [runLoop_trapped st inp rest h hok]
    exact ⟨_, rfl, List.prefix_refl _⟩

theorem frameBody_filter_release (ct dt : Nat) (K : Int) (inp : FrameInput) :
    ((frameBody ct dt K inp).map Call.cmd).filter isResourceRelease = [] := by
  unfold frameBody
  simp only [List.map_append, List.filter_append,
    eventCalls_filter inp.events isResourceRelease (fun _ _ => rfl)]
  unfold spawnCalls
  split <;> rfl

/-- C10 (the claim as stated fails): a frame in which no quit signal is polled but
`clEnqueueAcquireGLObjects` fails is not followed by another frame, and a frame in which
`SDL_QUIT` is polled and the acquire fails does not reach its draw and is not followed by
the release of the resources. -/
theorem failed_frame_ends_the_run :
    quitPolled (FrameInput.acquireFails 1005).events = false ∧
      (runLoop ⟨1000, 0, true⟩ [FrameInput.acquireFails 1005, FrameInput.quiet 1010]).frames =
        [⟨1000, 0, true⟩] ∧
      quitPolled (FrameInput.quitAndAcquireFails 1005).events = true ∧
      (runLoop ⟨1000, 0, true⟩ [FrameInput.quitAndAcquireFails 1005]).trace =
        [Cmd.api Api.SDL_GetKeyboardState, Cmd.api Api.glFinish,
          Cmd.api Api.clEnqueueAcquireGLObjects, Cmd.api Api.DEBUG_BREAK] := by
  decide

/-- C10 (amended): provided every call of the frame succeeds, a frame runs to completion
whether or not a quit signal is polled in it; if one is polled, no further frame is
started and the resources are released after the commands of that frame, which contain its
`clFinish` and no release; if none is polled, the flag `loop` stays set and the next frame
is started. -/
theorem quit_at_frame_granularity (st : LoopState) (inp nxt : FrameInput)
    (rest : List FrameInput) (hloop : st.loop = true) (h : FrameSucceeds st inp) :
    (frame st inp).trace = (frameCalls st inp).map Call.cmd ∧
      Cmd.api Api.clFinish ∈ (frame st inp).trace ∧
      (frame st inp).trace.filter isResourceRelease = [] ∧
      shutdownCmds.all isResourceRelease = true ∧
      (quitPolled inp.events = true →
        runLoop st (inp :: rest) =
          ⟨(frame st inp).trace ++ shutdownCmds, some EXIT_SUCCESS, [st], false⟩) ∧
      (quitPolled inp.events = false →
        (frame st inp).next.loop = true ∧
          ∃ tl, (runLoop st (inp :: nxt :: rest)).frames = st :: (frame st inp).next :: tl ∧
            (frame st inp).trace ++ (frame (frame st inp).next nxt).trace <+:
              (runLoop st (inp :: nxt :: rest)).trace) := by
  have htr := frame_trace_of_succeeds st inp h
  have hok : (frame st inp).ending = Ending.completed := (frame_ok_iff st inp).2 h
  have hnext : (frame st inp).next.loop = (true && !quitPolled inp.events) := by
    show pollEvents st.loop inp.events = _
    rw [hloop, pollEvents_eq]
  have hall : shutdownCmds.all isResourceRelease = true := by decide
  refine ⟨htr, ?_, ?_, hall, ?_, ?_⟩
  · rw [htr]
    unfold frameCalls
    obtain ⟨pre, hpre, _⟩ := frameBody_sync_facts (toSeconds st.t1) (toSeconds st.deltaTime)
      (numParticlesToSpawnOf (toSeconds st.deltaTime)) inp
    rw [hpre]
    simp
  · rw [htr]
    unfold frameCalls
    exact frameBody_filter_release _ _ _ _
  · intro hq
    have hstop : (frame st inp).next.loop = false := by rw [hnext, hq]; rfl
    rw [runLoop_completed st inp rest hloop hok, runLoop_stopped _ rest hstop]
  · intro hq
    have hgo : (frame st inp).next.loop = true := by rw [hnext, hq]; rfl
    refine ⟨hgo, ?_⟩
    obtain ⟨tl, h1, h2⟩ := runLoop_frames_head (frame st inp).next nxt rest hgo
    rw [runLoop_completed st inp (nxt :: rest) hloop hok]
    refine ⟨tl, by simp [h1], ?_⟩
    exact (List.prefix_append_right_inj _).2 h2

theorem quit_at_frame_granularity_witness :
    runLoop ⟨1005, 5, true⟩
        ({ FrameInput.quiet 1010 with events := [Event.keyDown 27] } :: [FrameInput.quiet 1020]) =
      ⟨(frame ⟨1005, 5, true⟩ { FrameInput.quiet 1010 with events := [Event.keyDown 27] }).trace ++
          shutdownCmds, some EXIT_SUCCESS, [⟨1005, 5, true⟩], false⟩ :=
  (quit_at_frame_granularity ⟨1005, 5, true⟩
    { FrameInput.quiet 1010 with events := [Event.keyDown 27] } (FrameInput.quiet 1015)
    [FrameInput.quiet 1020] (by decide) (by decide)).2.2.2.2.1 (by decide)

/-! ## Record layout -/

/-- C7: the buffer has `NUM_PARTICLES * particleStateStructSize = 64000000` bytes, which
fits an `unsigned int`; both vertex attributes are bound with the record stride, the
position at offset 0 (12 bytes) and the alive flag at offset 16 (1 byte); so for a drawn
vertex `i < NUM_PARTICLES` the bytes of both attributes lie inside record `i` and inside
the buffer. -/
theorem record_layout_consistent (i : Nat) (h : i < NUM_PARTICLES) :
    particleStateSize = NUM_PARTICLES * particleStateStructSize ∧
      particleStateSize = 64000000 ∧
      NUM_PARTICLES * particleStateStructSize < 2 ^ 32 ∧
      (∀ s : Setup, Cmd.glBufferData particleStateSize ∈ (computeSetupCalls s).map Call.cmd) ∧
      Cmd.glDrawArrays 0 NUM_PARTICLES ∈ renderCmds ∧
      Cmd.glVertexAttribPointer Attrib.position 3 4 particleStateStructSize 0 ∈ renderCmds ∧
      Cmd.glVertexAttribPointer Attrib.isAlive 1 1 particleStateStructSize 16 ∈ renderCmds ∧
      (∀ a size typeBytes stride offset,
        Cmd.glVertexAttribPointer a size typeBytes stride offset ∈ renderCmds →
          stride = particleStateStructSize ∧
            (a = Attrib.position → offset = 0 ∧ size * typeBytes = 12) ∧
            (a = Attrib.isAlive → offset = 16 ∧ size * typeBytes = 1) ∧
            particleStateStructSize * i ≤ stride * i + offset ∧
            stride * i + offset + size * typeBytes ≤ particleStateStructSize * (i + 1) ∧
            stride * i + offset + size * typeBytes ≤ particleStateSize) := by
  have hN : NUM_PARTICLES = 1000000 := rfl
  have hS : particleStateStructSize = 64 := rfl
  have hB : particleStateSize = 64000000 := by decide
  refine ⟨by decide, hB, by decide, fun s => ?_, by decide, by decide, by decide, ?_⟩
  · simp [computeSetupCalls, Call.plain]
  · intro a size typeBytes stride offset hm
    rw [hN] at h
    simp only [renderCmds, List.mem_cons, List.mem_singleton, List.not_mem_nil, or_false,
      reduceCtorEq, false_or, Cmd.glVertexAttribPointer.injEq] at hm
    rcases hm with ⟨rfl, rfl, rfl, rfl, rfl⟩ | ⟨rfl, rfl, rfl, rfl, rfl⟩
    · rw [hB, hS]
      refine ⟨rfl, fun _ => ⟨rfl, rfl⟩, (by intro hc; cases hc), ?_, ?_, ?_⟩ <;> omega
    · rw [hB, hS]
      refine ⟨rfl, (by intro hc; cases hc), fun _ => ⟨rfl, rfl⟩, ?_, ?_, ?_⟩ <;> omega

theorem record_layout_consistent_witness :
    (999999 : Nat) < NUM_PARTICLES ∧ particleStateSize = 64000000 ∧
      particleStateStructSize * 999999 + 16 + 1 ≤ particleStateSize :=
  ⟨by decide, (record_layout_consistent 999999 (by decide)).2.1,
    ((record_layout_consistent 999999 (by decide)).2.2.2.2.2.2.2 Attrib.isAlive 1 1
      particleStateStructSize 16 (by decide)).2.2.2.2.2⟩

/-! ## Frame times -/

theorem u32sub_cast (a b : Nat) : ((u32sub a b : Nat) : Int) = ((a : Int) - (b : Int)) % 2 ^ 32 := by
  unfold u32sub
  push_cast
  omega

theorem runLoop_frames_time (inputs : List FrameInput) :
    ∀ st0 k st, (runLoop st0 inputs).frames.get? k = some st →
      (k = 0 → st = st0) ∧
        (∀ j, k = j + 1 → ∃ prev inp, (runLoop st0 inputs).frames.get? j = some prev ∧
          inputs.get? j = some inp ∧ st.t1 = inp.ticks % 2 ^ 32 ∧
          st.deltaTime = u32sub (inp.ticks % 2 ^ 32) prev.t1) := by
  induction inputs with
  | nil =>
    intro st0 k st hk
    unfold runLoop at hk
    split at hk <;> simp at hk
  | cons inp rest ih =>
    intro st0 k st hk
    by_cases hl : st0.loop = true
    · by_cases hok : (frame st0 inp).ending = Ending.completed
      · rw [runLoop_completed st0 inp rest hl hok] at hk ⊢
        cases k with
        | zero =>
          simp only [List.get?_cons_zero, Option.some.injEq] at hk
          exact ⟨fun _ => hk.symm, fun j hj => by omega⟩
        | succ k1 =>
          simp only [List.get?_cons_succ] at hk
          obtain ⟨ih1, ih2⟩ := ih (frame st0 inp).next k1 st hk
          refine ⟨fun h0 => by omega, fun j hj => ?_⟩
          have hj1 : j = k1 := by omega
          subst hj1
          cases j with
          | zero =>
            have e := ih1 rfl
            refine ⟨st0, inp, by simp, by simp, ?_, ?_⟩
            · rw [e]; rfl
            · rw [e]; rfl
          | succ j1 =>
            obtain ⟨prev, inp1, a1, a2, a3, a4⟩ := ih2 j1 rfl
            exact ⟨prev, inp1, by simpa using a1, by simpa using a2, a3, a4⟩
      · rw [runLoop_trapped st0 inp rest hl hok] at hk ⊢
        cases k with
        | zero =>
          simp only [List.get?_cons_zero, Option.some.injEq] at hk
          exact ⟨fun _ => hk.symm, fun j hj => by omega⟩
        | succ k1 => simp at hk
    · rw [runLoop_stopped st0 _ (by simpa using hl)] at hk
      simp at hk

theorem main_frames_sub (s : Setup) (inputs : List FrameInput) (k : Nat) (st : LoopState)
    (h : (main s inputs).frames.get? k = some st) :
    (main s inputs).frames = (runLoop (initialState s) inputs).frames := by
  rcases main_cases s inputs with ⟨_, _, h0, _⟩ | ⟨_, _, h0⟩ | ⟨_, _, h0, _⟩ | ⟨_, h0⟩
  · rw [h0] at h
    simp at h
  · rw [h0] at h
    simp at h
  · rw [h0] at h
    simp at h
  · rw [h0]

theorem main_frame_t1 (s : Setup) (inputs : List FrameInput) (k : Nat) (st : LoopState)
    (h : (main s inputs).frames.get? k = some st) :
    st.t1 = tickReading s inputs k := by
  rw [main_frames_sub s inputs k st h] at h
  obtain ⟨h0, h1⟩ := runLoop_frames_time inputs (initialState s) k st h
  cases k with
  | zero => rw [h0 rfl]; rfl
  | succ j =>
    obtain ⟨prev, inp, _, a2, a3, _⟩ := h1 j rfl
    rw [a3]
    show _ = (match inputs.get? j with
      | some inp => inp.ticks % 2 ^ 32
      | none => 0)
    rw [a2]

theorem frameBody_filter_update (ct dt : Nat) (K : Int) (inp : FrameInput) :
    ((frameBody ct dt K inp).map Call.cmd).filter (usesKernel Kernel.updateParticleState) =
      [Cmd.clSetKernelArg Kernel.updateParticleState 1 (ArgVal.int inp.updateSeed),
        Cmd.clSetKernelArg Kernel.updateParticleState 2 (ArgVal.float dt),
        Cmd.clEnqueueNDRangeKernel Kernel.updateParticleState NUM_PARTICLES] := by
  unfold frameBody
  simp only [List.map_append, List.filter_append,
    eventCalls_filter inp.events (usesKernel Kernel.updateParticleState) (fun _ _ => rfl)]
  unfold spawnCalls
  split <;> rfl

theorem frameBody_filter_death (ct dt : Nat) (K : Int) (inp : FrameInput) :
    ((frameBody ct dt K inp).map Call.cmd).filter (usesKernel Kernel.checkParticleDeath) =
      [Cmd.clSetKernelArg Kernel.checkParticleDeath 1 (ArgVal.float ct),
        Cmd.clEnqueueNDRangeKernel Kernel.checkParticleDeath NUM_PARTICLES] := by
  unfold frameBody
  simp only [List.map_append, List.filter_append,
    eventCalls_filter inp.events (usesKernel Kernel.checkParticleDeath) (fun _ _ => rfl)]
  unfold spawnCalls
  split <;> rfl

/-- C8: frame `k + 1` of an execution runs with `t1` equal to tick reading `k` (the
pre-loop reading for the first frame); the first frame runs with `deltaTime = 0` and
every later frame with the difference of the two preceding readings modulo `2 ^ 32`; and
in a frame in which every call succeeds, the update kernel receives the seconds value of
this `deltaTime`, from which the spawn count is computed too, and the spawn and
death-check kernels receive the seconds value of this `t1`. -/
theorem frame_times (s : Setup) (inputs : List FrameInput) (k : Nat) (st : LoopState)
    (inp : FrameInput) (hk : (main s inputs).frames.get? k = some st)
    (hs : FrameSucceeds st inp) :
    st.t1 = tickReading s inputs k ∧
      (k = 0 → st.deltaTime = 0) ∧
      (∀ j, k = j + 1 →
        (st.deltaTime : Int) =
          ((tickReading s inputs (j + 1) : Int) - (tickReading s inputs j : Int)) % 2 ^ 32) ∧
      (frame st inp).trace.filter (usesKernel Kernel.updateParticleState) =
        [Cmd.clSetKernelArg Kernel.updateParticleState 1 (ArgVal.int inp.updateSeed),
          Cmd.clSetKernelArg Kernel.updateParticleState 2 (ArgVal.float (toSeconds st.deltaTime)),
          Cmd.clEnqueueNDRangeKernel Kernel.updateParticleState NUM_PARTICLES] ∧
      (frame st inp).trace.filter (usesKernel Kernel.checkParticleDeath) =
        [Cmd.clSetKernelArg Kernel.checkParticleDeath 1 (ArgVal.float (toSeconds st.t1)),
          Cmd.clEnqueueNDRangeKernel Kernel.checkParticleDeath NUM_PARTICLES] ∧
      (frame st inp).trace.filter (usesKernel Kernel.spawnParticle) =
        (if 0 < numParticlesToSpawnOf (toSeconds st.deltaTime) then
          [Cmd.clSetKernelArg Kernel.spawnParticle 2
              (ArgVal.int (numParticlesToSpawnOf (toSeconds st.deltaTime))),
            Cmd.clSetKernelArg Kernel.spawnParticle 3 (ArgVal.int inp.spawnSeed),
            Cmd.clSetKernelArg Kernel.spawnParticle 4 (ArgVal.float (toSeconds st.t1)),
            Cmd.clEnqueueNDRangeKernel Kernel.spawnParticle NUM_PARTICLES]
        else []) := by
  have hsub := main_frames_sub s inputs k st hk
  have hk1 := hk
  rw [hsub] at hk1
  obtain ⟨h0, h1⟩ := runLoop_frames_time inputs (initialState s) k st hk1
  have htr := frame_trace_of_succeeds st inp hs
  refine ⟨main_frame_t1 s inputs k st hk, ?_, ?_, ?_, ?_, ?_⟩
  · intro hz
    rw [h0 hz]
    rfl
  · intro j hj
    obtain ⟨prev, inp1, a1, a2, a3, a4⟩ := h1 j hj
    have hprev : prev.t1 = tickReading s inputs j :=
      main_frame_t1 s inputs j prev (by rw [hsub]; exact a1)
    have hnext : tickReading s inputs (j + 1) = inp1.ticks % 2 ^ 32 := by
      show (match inputs.get? j with
        | some inp => inp.ticks % 2 ^ 32
        | none => 0) = _
      rw [a2]
    rw [a4, u32sub_cast, hprev, hnext]
  · rw [htr]
    unfold frameCalls
    exact frameBody_filter_update _ _ _ _
  · rw [htr]
    unfold frameCalls
    exact frameBody_filter_death _ _ _ _
  · rw [htr]
    exact frameCalls_filter_spawn st inp

theorem frame_times_witness :
    (⟨1005, 5, true⟩ : LoopState).t1 =
        tickReading (Setup.good 1000) [FrameInput.quiet 1005, FrameInput.quiet 1012] 1 ∧
      (frame ⟨1005, 5, true⟩ (FrameInput.quiet 1012)).trace.filter
          (usesKernel Kernel.checkParticleDeath) =
        [Cmd.clSetKernelArg Kernel.checkParticleDeath 1 (ArgVal.float (toSeconds 1005)),
          Cmd.clEnqueueNDRangeKernel Kernel.checkParticleDeath NUM_PARTICLES] :=
  ⟨(frame_times (Setup.good 1000) [FrameInput.quiet 1005, FrameInput.quiet 1012] 1
      ⟨1005, 5, true⟩ (FrameInput.quiet 1012) (by decide) (by decide)).1,
    (frame_times (Setup.good 1000) [FrameInput.quiet 1005, FrameInput.quiet 1012] 1
      ⟨1005, 5, true⟩ (FrameInput.quiet 1012) (by decide) (by decide)).2.2.2.2.1⟩

/-! ## The extension scan -/

theorem findChar_some (c : Char) :
    ∀ (l : List Char) (i : Nat), findChar c l = some i →
      l = l.take i ++ c :: l.drop (i + 1) ∧ c ∉ l.take i := by
  intro l
  induction l with
  | nil => intro i h; simp [findChar] at h
  | cons x xs ih =>
    intro i h
    unfold findChar at h
    by_cases hx : x = c
    · rw [if_pos hx] at h
      cases h
      simp [hx]
    · rw [if_neg hx] at h
      cases hf : findChar c xs with
      | none => rw [hf] at h; simp at h
      | some j =>
        rw [hf] at h
        simp only [Option.map_some', Option.some.injEq] at h
        subst h
        obtain ⟨h1, h2⟩ := ih j hf
        constructor
        · simp only [List.take_succ_cons, List.drop_succ_cons, List.cons_append]
          rw [← h1]
        · simp only [List.take_succ_cons, List.mem_cons, not_or]
          exact ⟨fun e => hx e.symm, h2⟩

theorem find_some (s : List Char) (c : Char) (pos j : Nat) (h : find s c pos = some j) :
    pos ≤ j ∧ j < s.length ∧
      s.drop pos = substr s pos (j - pos) ++ c :: s.drop (j + 1) ∧
      c ∉ substr s pos (j - pos) := by
  unfold find at h
  cases hf : findChar c (s.drop pos) with
  | none => rw [hf] at h; simp at h
  | some i =>
    rw [hf] at h
    simp only [Option.map_some', Option.some.injEq] at h
    subst h
    obtain ⟨h1, h2⟩ := findChar_some c _ i hf
    have hlen := congrArg List.length h1
    simp only [List.length_append, List.length_cons, List.length_drop, List.length_take] at hlen
    have e : i + pos - pos = i := by omega
    unfold substr
    rw [e]
    refine ⟨by omega, by omega, ?_, h2⟩
    have hd : List.drop (i + 1) (List.drop pos s) = List.drop (i + pos + 1) s := by
      rw [List.drop_drop]
      congr 1
      omega
    rw [← hd]
    exact h1

theorem tokens_run (t rest : List Char) (h : ' ' ∉ t) :
    tokens (t ++ ' ' :: rest) = t :: tokens rest := by
  induction t with
  | nil => simp [tokens]
  | cons c t ih =>
    have hc : c ≠ ' ' := fun e => h (by simp [e])
    have ht : ' ' ∉ t := fun e => h (by simp [e])
    show tokens (c :: (t ++ ' ' :: rest)) = (c :: t) :: tokens rest
    rw [tokens, if_neg hc, ih ht]

theorem tokens_after_space (rest : List Char) :
    ∀ pre : List Char, ∀ x ∈ tokens rest, x ∈ (tokens (pre ++ ' ' :: rest)).tail := by
  intro pre
  induction pre with
  | nil => intro x hx; simpa [tokens] using hx
  | cons c pre ih =>
    intro x hx
    have h1 := ih x hx
    by_cases hc : c = ' '
    · simp only [List.cons_append, tokens, if_pos hc, List.tail_cons]
      exact List.mem_of_mem_tail h1
    · simp only [List.cons_append, tokens, if_neg hc]
      cases hT : tokens (pre ++ ' ' :: rest) with
      | nil => rw [hT] at h1; simp at h1
      | cons t ts =>
        rw [hT] at h1
        simpa using h1

theorem atTokenStart_step (s : List Char) (o sp : Nat) (hb : AtTokenStart s o)
    (hf : find s ' ' o = some sp) :
    AtTokenStart s (sp + 1) ∧ substr s o (sp - o) ∈ tokens s := by
  obtain ⟨_, _, h3, h4⟩ := find_some s ' ' o sp hf
  have ht := tokens_run _ (s.drop (sp + 1)) h4
  rw [← h3] at ht
  constructor
  · intro x hx
    apply hb
    rw [ht]
    exact List.mem_cons_of_mem _ hx
  · apply hb
    rw [ht]
    exact List.mem_cons_self _ _

theorem skipSpaces_spec (s : List Char) :
    ∀ fuel sp, AtTokenStart s (sp + 1) → sp < s.length → s.length < fuel + sp →
      ∃ o p, skipSpaces s fuel sp = some (o, p) ∧ AtTokenStart s o ∧ p = find s ' ' o ∧
        sp < o ∧ o ≤ s.length := by
  intro fuel
  induction fuel with
  | zero => intro sp _ h1 h2; omega
  | succ f ih =>
    intro sp hb h1 h2
    unfold skipSpaces
    by_cases hs : find s ' ' (sp + 1) = some (sp + 1)
    · simp only [hs, if_true]
      obtain ⟨_, hlt, _, _⟩ := find_some s ' ' (sp + 1) (sp + 1) hs
      obtain ⟨o, p, e, a, b, c, d⟩ :=
        ih (sp + 1) (atTokenStart_step s (sp + 1) (sp + 1) hb hs).1 hlt (by omega)
      exact ⟨o, p, e, a, b, by omega, d⟩
    · simp only [hs, if_false]
      exact ⟨sp + 1, _, rfl, hb, rfl, by omega, by omega⟩

theorem cStr_no_nul (buf : List Char) : ∀ c ∈ cStr buf, c ≠ Char.ofNat 0 := by
  intro c hc
  have := List.mem_takeWhile_imp hc
  simpa using this

theorem cStr_of_no_nul (t : List Char) (h : ∀ c ∈ t, c ≠ Char.ofNat 0) : cStr t = t := by
  unfold cStr
  rw [List.takeWhile_eq_self_iff]
  intro c hc
  simpa using h c hc

theorem substr_subset (s : List Char) (pos len : Nat) : ∀ c ∈ substr s pos len, c ∈ s := by
  intro c hc
  exact List.mem_of_mem_drop (List.mem_of_mem_take hc)

/-- The scan loop stops, and it answers `true` only when the name of the sharing extension
is one of the tokens of the string. -/
theorem scanLoop_spec (s : List Char) (hnul : ∀ c ∈ s, c ≠ Char.ofNat 0) :
    ∀ fuel old p, AtTokenStart s old → p = find s ' ' old → old ≤ s.length →
      s.length < fuel + old →
      ∃ b, scanLoop s fuel old p = some b ∧ (b = true → GL_SHARING_EXTENSION ∈ tokens s) := by
  intro fuel
  induction fuel with
  | zero => intro old p _ _ h1 h2; omega
  | succ f ih =>
    intro old p hb hp h1 h2
    cases p with
    | none => exact ⟨false, rfl, fun h => by cases h⟩
    | some sp =>
      have hf : find s ' ' old = some sp := hp.symm
      obtain ⟨g1, g2, _, _⟩ := find_some s ' ' old sp hf
      obtain ⟨hb1, hmem⟩ := atTokenStart_step s old sp hb hf
      unfold scanLoop
      by_cases hcmp : strcmpEq GL_SHARING_EXTENSION (substr s old (sp - old)) = true
      · rw [if_pos hcmp]
        refine ⟨true, rfl, fun _ => ?_⟩
        unfold strcmpEq at hcmp
        have e := of_decide_eq_true hcmp
        rw [cStr_of_no_nul _ (fun c hc => hnul c (substr_subset s _ _ c hc)),
          cStr_of_no_nul GL_SHARING_EXTENSION (by decide)] at e
        rw [e]
        exact hmem
      · rw [if_neg hcmp]
        obtain ⟨o, q, e, a, b, c, d⟩ := skipSpaces_spec s (s.length + 1) sp hb1 g2 (by omega)
        rw [e]
        exact ih o q a b d (by omega)

theorem scanExtensionsFuel_total (buf : List Char) :
    ∃ b, scanExtensionsFuel ((cStr buf).length + 1) (cStr buf) = some b ∧
      (b = true → GL_SHARING_EXTENSION ∈ tokens (cStr buf)) := by
  unfold scanExtensionsFuel
  exact scanLoop_spec (cStr buf) (cStr_no_nul buf) _ 0 _ (fun x hx => by simpa using hx) rfl
    (by omega) (by omega)

theorem startupCalls_filter_setup (s : Setup) :
    ((startupCalls s).map Call.cmd).filter isComputeSetup = [] := by
  unfold startupCalls
  split <;> rfl

/-- C5: when the name of the sharing extension is not one of the space-separated tokens
of the extension string (the empty string included), the scan stops and leaves
`sharingSupported = false`; the run starts no frame and issues no call that creates the
context, the queue, the program, the buffer or a kernel, and `main` does not return
`EXIT_SUCCESS`; when the calls before the scan succeed, so that the scan is reached,
`main` returns `EXIT_FAILURE` (line 283, no trap) having issued exactly the startup
calls; otherwise a call before the scan has failed, and the run ends in `EXIT_FAILURE` or
in a `DEBUG_BREAK()` trap. -/
theorem sharing_unadvertised_fails (s : Setup) (inputs : List FrameInput)
    (h : GL_SHARING_EXTENSION ∉ tokens (cStr s.extensions)) :
    scanExtensionsFuel ((cStr s.extensions).length + 1) (cStr s.extensions) = some false ∧
      sharingSupported s = false ∧
      (main s inputs).frames = [] ∧
      (main s inputs).trace = (runCalls (startupCalls s)).1 ∧
      (main s inputs).trace.filter isComputeSetup = [] ∧
      (main s inputs).exit ≠ some EXIT_SUCCESS ∧
      ((∀ c ∈ startupCalls s, c.failed = false) →
        main s inputs = ⟨(startupCalls s).map Call.cmd, some EXIT_FAILURE, [], false⟩) ∧
      ((main s inputs).exit = some EXIT_FAILURE ∨
        ((main s inputs).exit = none ∧ (main s inputs).trapped = true)) := by
  obtain ⟨b, hb1, hb2⟩ := scanExtensionsFuel_total s.extensions
  have hb : b = false := by
    cases b with
    | false => rfl
    | true => exact absurd (hb2 rfl) h
  subst hb
  have hscan : scanExtensions (cStr s.extensions) = false := by
    unfold scanExtensions
    rw [hb1]
    rfl
  have hsh : sharingSupported s = false := by
    unfold sharingSupported
    split
    · exact hscan
    · rfl
  have hne : ¬ (some EXIT_FAILURE = some EXIT_SUCCESS) := by decide
  have hfil : (runCalls (startupCalls s)).1.filter isComputeSetup = [] := by
    rw [List.filter_eq_nil_iff]
    intro c hc
    rcases runCalls_mem (startupCalls s) c hc with h1 | h1
    · have := startupCalls_filter_setup s
      rw [List.filter_eq_nil_iff] at this
      exact this c h1
    · rw [h1]
      simp [isComputeSetup]
  have hmain : main s inputs =
      ⟨(runCalls (startupCalls s)).1,
        if (runCalls (startupCalls s)).2 = Ending.trapped then none else some EXIT_FAILURE, [],
        decide ((runCalls (startupCalls s)).2 = Ending.trapped)⟩ := by
    by_cases h1 : (runCalls (startupCalls s)).2 = Ending.completed
    · rw [main_of_no_sharing s inputs h1 hsh, h1]
      rfl
    · exact main_of_startup_failed s inputs h1
  refine ⟨hb1, hsh, by rw [hmain], by rw [hmain], by rw [hmain]; exact hfil, ?_, ?_, ?_⟩
  · rw [hmain]
    show (if _ then none else some EXIT_FAILURE) ≠ some EXIT_SUCCESS
    split
    · simp
    · exact hne
  · intro hall
    rw [hmain, runCalls_of_succeed _ hall]
    rfl
  · rw [hmain]
    by_cases ht : (runCalls (startupCalls s)).2 = Ending.trapped
    · right
      simp [ht]
    · left
      simp [ht]

theorem sharing_unadvertised_fails_witness :
    GL_SHARING_EXTENSION ∉ tokens (cStr Setup.withoutSharing.extensions) ∧
      main Setup.withoutSharing [FrameInput.quiet 1005] =
        ⟨(startupCalls Setup.withoutSharing).map Call.cmd, some EXIT_FAILURE, [], false⟩ :=
  ⟨by decide,
    (sharing_unadvertised_fails Setup.withoutSharing [FrameInput.quiet 1005]
      (by decide)).2.2.2.2.2.2.1 (by decide)⟩

theorem findChar_first (c : Char) (rest : List Char) :
    ∀ t : List Char, c ∉ t → findChar c (t ++ c :: rest) = some t.length := by
  intro t
  induction t with
  | nil => intro _; simp [findChar]
  | cons x t ih =>
    intro h
    have hx : x ≠ c := fun e => h (by simp [e])
    have ht : c ∉ t := fun e => h (by simp [e])
    show findChar c (x :: (t ++ c :: rest)) = _
    rw [findChar, if_neg hx, ih ht]
    rfl

theorem find_first (s : List Char) (c : Char) (pos : Nat) (t rest : List Char)
    (h : s.drop pos = t ++ c :: rest) (hc : c ∉ t) :
    find s c pos = some (t.length + pos) ∧ substr s pos (t.length + pos - pos) = t ∧
      s.drop (t.length + pos + 1) = rest := by
  refine ⟨?_, ?_, ?_⟩
  · unfold find
    rw [h, findChar_first c rest t hc]
    rfl
  · unfold substr
    rw [h, Nat.add_sub_cancel]
    simp
  · have : s.drop (t.length + pos + 1) = (s.drop pos).drop (t.length + 1) := by
      rw [List.drop_drop]
      congr 1
      omega
    rw [this, h]
    simp

theorem first_space (m : List Char) (h : ' ' ∈ m) :
    ∃ t m2, m = t ++ ' ' :: m2 ∧ ' ' ∉ t := by
  induction m with
  | nil => simp at h
  | cons x m ih =>
    by_cases hx : x = ' '
    · exact ⟨[], m, by simp [hx], by simp⟩
    · have hm : ' ' ∈ m := by
        rcases List.mem_cons.1 h with e | e
        · exact absurd e.symm hx
        · exact e
      obtain ⟨t, m2, e1, e2⟩ := ih hm
      refine ⟨x :: t, m2, by simp [e1], ?_⟩
      simp only [List.mem_cons, not_or]
      exact ⟨fun e => hx e.symm, e2⟩

theorem endsWithSpace_tail (t m2 m1 : List Char) (h : t ++ ' ' :: m2 = m1 ++ [' ']) :
    m2 = [] ∨ ∃ m3, m2 = m3 ++ [' '] := by
  rcases List.eq_nil_or_concat m2 with rfl | ⟨m3, x, rfl⟩
  · exact Or.inl rfl
  · right
    have h1 : (t ++ ' ' :: m3) ++ [x] = m1 ++ [' '] := by simpa using h
    have h2 := (List.append_inj' h1 rfl).2
    simp only [List.cons.injEq, and_true] at h2
    exact ⟨m3, by rw [h2]; simp⟩

theorem skipSpaces_ahead (s post : List Char) :
    ∀ fuel sp o p, TokenAhead s post (sp + 1) → skipSpaces s fuel sp = some (o, p) →
      TokenAhead s post o ∧ p = find s ' ' o := by
  intro fuel
  induction fuel with
  | zero => intro sp o p _ h; simp [skipSpaces] at h
  | succ f ih =>
    intro sp o p ha h
    unfold skipSpaces at h
    by_cases hs : find s ' ' (sp + 1) = some (sp + 1)
    · simp only [hs, if_true] at h
      apply ih (sp + 1) o p _ h
      obtain ⟨_, _, h3, _⟩ := find_some s ' ' (sp + 1) (sp + 1) hs
      obtain ⟨m, hm, hend⟩ := ha
      have h4 : s.drop (sp + 1) = ' ' :: s.drop (sp + 1 + 1) := by
        simpa [substr] using h3
      rw [hm] at h4
      cases m with
      | nil =>
        have : GL_SHARING_EXTENSION.head? = some ' ' := by
          have := congrArg List.head? h4
          simp [GL_SHARING_EXTENSION] at this
        exact absurd this (by decide)
      | cons x m' =>
        simp only [List.cons_append, List.cons.injEq] at h4
        obtain ⟨hx, hrest⟩ := h4
        refine ⟨m', by rw [← hrest, List.append_assoc], ?_⟩
        rcases hend with he | ⟨m1, he⟩
        · cases he
        · subst hx
          exact endsWithSpace_tail [] m' m1 (by simpa using he)
    · simp only [hs, if_false, Option.some.injEq, Prod.mk.injEq] at h
      obtain ⟨h1, h2⟩ := h
      subst h1
      exact ⟨ha, h2.symm⟩

theorem scanLoop_complete (s post : List Char) :
    ∀ fuel old p b, TokenAhead s post old → p = find s ' ' old →
      scanLoop s fuel old p = some b → b = true := by
  intro fuel
  induction fuel with
  | zero => intro old p b _ _ h; simp [scanLoop] at h
  | succ f ih =>
    intro old p b ha hp h
    obtain ⟨m, hm, hend⟩ := ha
    have hT : ' ' ∉ GL_SHARING_EXTENSION := by decide
    rcases hend with he | ⟨m1, he⟩
    · subst he
      obtain ⟨f1, f2, _⟩ := find_first s ' ' old GL_SHARING_EXTENSION post
        (by simpa using hm) hT
      rw [hp, f1] at h
      unfold scanLoop at h
      rw [f2] at h
      have hc : strcmpEq GL_SHARING_EXTENSION GL_SHARING_EXTENSION = true := by decide
      rw [if_pos hc] at h
      exact (Option.some.inj h).symm
    · obtain ⟨t, m2, e1, e2⟩ := first_space m (by rw [he]; simp)
      have hdrop : s.drop old = t ++ ' ' :: (m2 ++ GL_SHARING_EXTENSION ++ ' ' :: post) := by
        rw [hm, e1]
        simp
      obtain ⟨f1, _, f3⟩ := find_first s ' ' old t _ hdrop e2
      have hnext : TokenAhead s post (t.length + old + 1) :=
        ⟨m2, f3, endsWithSpace_tail t m2 m1 (by rw [← e1, he])⟩
      rw [hp, f1] at h
      unfold scanLoop at h
      by_cases hcmp : strcmpEq GL_SHARING_EXTENSION
          (substr s old (t.length + old - old)) = true
      · rw [if_pos hcmp] at h
        exact (Option.some.inj h).symm
      · rw [if_neg hcmp] at h
        cases hsk : skipSpaces s (s.length + 1) (t.length + old) with
        | none => rw [hsk] at h; simp at h
        | some r =>
          obtain ⟨o, q⟩ := r
          rw [hsk] at h
          obtain ⟨a1, a2⟩ := skipSpaces_ahead s post _ _ o q hnext hsk
          exact ih o q b a1 a2 h

/-- The scan answers `true` whenever the name of the sharing extension is a token that is
followed by a space. -/
theorem scan_finds_token_before_space (buf pre post : List Char)
    (h : cStr buf = pre ++ GL_SHARING_EXTENSION ++ ' ' :: post)
    (hpre : pre = [] ∨ ∃ p1, pre = p1 ++ [' ']) :
    scanExtensionsFuel ((cStr buf).length + 1) (cStr buf) = some true := by
  obtain ⟨b, hb, _⟩ := scanExtensionsFuel_total buf
  have : b = true := by
    unfold scanExtensionsFuel at hb
    exact scanLoop_complete (cStr buf) post _ 0 _ b ⟨pre, by simpa using h, hpre⟩ rfl hb
  rw [hb, this]

/-- C12 (failing input): for the extension string "cl_khr_gl_sharing", whose only token
is the name of the sharing extension, the scan ends with `sharingSupported = false` and
`main` returns `EXIT_FAILURE`: the text after the last space is never compared. -/
theorem sharing_last_token_missed :
    GL_SHARING_EXTENSION ∈ tokens (cStr Setup.sharingLast.extensions) ∧
      scanExtensionsFuel ((cStr Setup.sharingLast.extensions).length + 1)
        (cStr Setup.sharingLast.extensions) = some false ∧
      sharingSupported Setup.sharingLast = false ∧
      (main Setup.sharingLast [FrameInput.quiet 1005]).exit = some EXIT_FAILURE := by
  decide

/-! ## Seeds -/

theorem eventCalls_filterMap (es : List Event) :
    ((eventCalls es).map Call.cmd).filterMap spawnSeedOf = [] := by
  induction es with
  | nil => rfl
  | cons e es ih =>
    cases e with
    | windowResized w h =>
      show List.filterMap spawnSeedOf (Cmd.glViewport w h :: (eventCalls es).map Call.cmd) = []
      rw [List.filterMap_cons_none rfl]
      exact ih
    | quit => exact ih
    | keyDown sym => exact ih
    | other => exact ih

theorem frameBody_spawnSeeds (ct dt : Nat) (K : Int) (inp : FrameInput) :
    spawnSeeds ((frameBody ct dt K inp).map Call.cmd) =
      if 0 < K then [inp.spawnSeed] else [] := by
  unfold spawnSeeds frameBody
  simp only [List.map_append, List.filterMap_append, eventCalls_filterMap]
  unfold spawnCalls
  split <;> rfl

/-- C11 (the claim as stated fails): in an execution whose second and third frame
dispatch the spawn kernel with the `rand()` values 26500 and 15724, the seed bound in the
later frame is the smaller one. -/
theorem spawn_seeds_not_increasing :
    spawnSeeds (main (Setup.good 1000) seedFrames).trace = [26500, 15724] ∧
      ¬ (spawnSeeds (main (Setup.good 1000) seedFrames).trace).Pairwise (· < ·) := by
  decide

/-- The monitor of the seed accepts the commands issued by a sequence of calls if it
accepts the commands of all its calls: a sequence cut short by a failed test issues a
prefix of them, followed at most by the trap. -/
theorem seedBound_runCalls (seed : Int) (cs : List Call) :
    ∀ b, seedBoundBeforeDispatch seed b (cs.map Call.cmd) = true →
      seedBoundBeforeDispatch seed b (runCalls cs).1 = true := by
  induction cs with
  | nil => intro b _; rfl
  | cons c cs ih =>
    intro b h
    have hd : ∀ b1, seedBoundBeforeDispatch seed b1 [Cmd.api Api.DEBUG_BREAK] = true := by
      intro b1
      simp [seedBoundBeforeDispatch, spawnSeedOf, isSpawnDispatch]
    rw [List.map_cons, seedBoundBeforeDispatch] at h
    by_cases hc : c.failed = true
    · rw [runCalls, if_pos hc]
      by_cases ht : c.trap = true
      · rw [if_pos ht]
        show seedBoundBeforeDispatch seed b [c.cmd, Cmd.api Api.DEBUG_BREAK] = true
        rw [seedBoundBeforeDispatch]
        cases hs : spawnSeedOf c.cmd with
        | some v =>
          rw [hs] at h
          simp only [Bool.and_eq_true] at h ⊢
          exact ⟨h.1, hd _⟩
        | none =>
          rw [hs] at h
          simp only [Bool.and_eq_true] at h ⊢
          exact ⟨h.1, hd _⟩
      · rw [if_neg ht]
        show seedBoundBeforeDispatch seed b [c.cmd] = true
        rw [seedBoundBeforeDispatch]
        cases hs : spawnSeedOf c.cmd with
        | some v =>
          rw [hs] at h
          simp only [Bool.and_eq_true] at h ⊢
          exact ⟨h.1, rfl⟩
        | none =>
          rw [hs] at h
          simp only [Bool.and_eq_true] at h ⊢
          exact ⟨h.1, rfl⟩
    · rw [runCalls, if_neg hc]
      show seedBoundBeforeDispatch seed b (c.cmd :: (runCalls cs).1) = true
      rw [seedBoundBeforeDispatch]
      cases hs : spawnSeedOf c.cmd with
      | some v =>
        rw [hs] at h
        simp only [Bool.and_eq_true] at h ⊢
        exact ⟨h.1, ih _ h.2⟩
      | none =>
        rw [hs] at h
        simp only [Bool.and_eq_true] at h ⊢
        exact ⟨h.1, ih _ h.2⟩

theorem seedBound_seeds (seed : Int) (tr : List Cmd) :
    ∀ b, seedBoundBeforeDispatch seed b tr = true → ∀ v ∈ spawnSeeds tr, v = seed := by
  induction tr with
  | nil => intro b _ v hv; simp [spawnSeeds] at hv
  | cons c cs ih =>
    intro b h v hv
    rw [seedBoundBeforeDispatch] at h
    unfold spawnSeeds at hv ih
    cases hs : spawnSeedOf c with
    | some w =>
      rw [hs] at h
      simp only [Bool.and_eq_true, decide_eq_true_eq] at h
      rw [List.filterMap_cons_some hs, List.mem_cons] at hv
      rcases hv with hv | hv
      · rw [hv]; exact h.1
      · exact ih _ h.2 v hv
    | none =>
      rw [hs] at h
      simp only [Bool.and_eq_true] at h
      rw [List.filterMap_cons_none hs] at hv
      exact ih _ h.2 v hv

theorem seedBound_before (seed : Int) (n : Nat) (post : List Cmd) (pre : List Cmd) :
    ∀ b, seedBoundBeforeDispatch seed b
        (pre ++ Cmd.clEnqueueNDRangeKernel Kernel.spawnParticle n :: post) = true →
      b = true ∨ seed ∈ spawnSeeds pre := by
  induction pre with
  | nil =>
    intro b h
    left
    rw [List.nil_append, seedBoundBeforeDispatch] at h
    have hs : spawnSeedOf (Cmd.clEnqueueNDRangeKernel Kernel.spawnParticle n) = none := rfl
    have hd : isSpawnDispatch (Cmd.clEnqueueNDRangeKernel Kernel.spawnParticle n) = true := rfl
    rw [hs] at h
    simp only [hd, Bool.not_true, Bool.false_or, Bool.and_eq_true] at h
    exact h.1
  | cons c cs ih =>
    intro b h
    rw [List.cons_append, seedBoundBeforeDispatch] at h
    unfold spawnSeeds at ih ⊢
    cases hs : spawnSeedOf c with
    | some w =>
      rw [hs] at h
      simp only [Bool.and_eq_true, decide_eq_true_eq] at h
      right
      rw [List.filterMap_cons_some hs, h.1]
      exact List.mem_cons_self _ _
    | none =>
      rw [hs] at h
      simp only [Bool.and_eq_true] at h
      rw [List.filterMap_cons_none hs]
      rcases ih _ h.2 with h1 | h1
      · left
        rcases h.1 with _
        exact h1
      · right; exact h1

theorem seedBound_events (seed : Int) (es : List Event) (rest : List Cmd) :
    ∀ b, seedBoundBeforeDispatch seed b ((eventCalls es).map Call.cmd ++ rest) =
      seedBoundBeforeDispatch seed b rest := by
  induction es with
  | nil => intro b; rfl
  | cons e es ih =>
    intro b
    cases e with
    | windowResized w h =>
      show seedBoundBeforeDispatch seed b
        (Cmd.glViewport w h :: ((eventCalls es).map Call.cmd ++ rest)) = _
      rw [seedBoundBeforeDispatch]
      simp [spawnSeedOf, isSpawnDispatch, ih]
    | quit => exact ih b
    | keyDown sym => exact ih b
    | other => exact ih b

theorem frameBody_seedBound (ct dt : Nat) (K : Int) (inp : FrameInput) :
    seedBoundBeforeDispatch inp.spawnSeed false ((frameBody ct dt K inp).map Call.cmd) =
      true := by
  unfold frameBody
  simp only [List.map_append, List.append_assoc, seedBound_events]
  unfold spawnCalls
  split
  · simp [seedBoundBeforeDispatch, spawnSeedOf, isSpawnDispatch, Call.plain, Call.checked,
      updateCalls, renderCmds]
  · simp [seedBoundBeforeDispatch, spawnSeedOf, isSpawnDispatch, Call.plain, Call.checked,
      updateCalls, renderCmds]

theorem frame_seedBound (st : LoopState) (inp : FrameInput) :
    seedBoundBeforeDispatch inp.spawnSeed false (frame st inp).trace = true := by
  show seedBoundBeforeDispatch inp.spawnSeed false (runCalls (frameCalls st inp)).1 = true
  apply seedBound_runCalls
  unfold frameCalls
  exact frameBody_seedBound _ _ _ _

/-- C11 (amended): in every frame, every seed bound to the spawn kernel is the value
returned by the `rand()` call of that frame (line 476), and whenever the spawn kernel is
submitted in a frame this value has been bound earlier in that frame; the seeds are not
increasing: there is an execution with two seed bindings in which the seed bound later is
the smaller one. -/
theorem spawn_seed_is_rand_value (st : LoopState) (inp : FrameInput) :
    (∀ v ∈ spawnSeeds (frame st inp).trace, v = inp.spawnSeed) ∧
      (∀ pre n post, (frame st inp).trace =
          pre ++ Cmd.clEnqueueNDRangeKernel Kernel.spawnParticle n :: post →
        inp.spawnSeed ∈ spawnSeeds pre) ∧
      ∃ s inputs a b, spawnSeeds (main s inputs).trace = [a, b] ∧ b < a := by
  have hm := frame_seedBound st inp
  refine ⟨seedBound_seeds _ _ false hm, ?_, ?_⟩
  · intro pre n post hsplit
    rw [hsplit] at hm
    rcases seedBound_before _ _ _ _ false hm with h | h
    · cases h
    · exact h
  · exact ⟨Setup.good 1000, seedFrames, 26500, 15724, by decide, by decide⟩

theorem spawn_seed_is_rand_value_witness :
    (frame ⟨1005, 5, true⟩ (FrameInput.quiet 1010)).trace =
        [Cmd.api Api.SDL_GetKeyboardState, Cmd.api Api.glFinish,
            Cmd.api Api.clEnqueueAcquireGLObjects,
            Cmd.clSetKernelArg Kernel.spawnParticle 2 (ArgVal.int 1001),
            Cmd.clSetKernelArg Kernel.spawnParticle 3 (ArgVal.int 41),
            Cmd.clSetKernelArg Kernel.spawnParticle 4 (ArgVal.float (toSeconds 1005))] ++
          Cmd.clEnqueueNDRangeKernel Kernel.spawnParticle NUM_PARTICLES ::
            (frame ⟨1005, 5, true⟩ (FrameInput.quiet 1010)).trace.drop 7 ∧
      (41 : Int) ∈ spawnSeeds
        [Cmd.api Api.SDL_GetKeyboardState, Cmd.api Api.glFinish,
          Cmd.api Api.clEnqueueAcquireGLObjects,
          Cmd.clSetKernelArg Kernel.spawnParticle 2 (ArgVal.int 1001),
          Cmd.clSetKernelArg Kernel.spawnParticle 3 (ArgVal.int 41),
          Cmd.clSetKernelArg Kernel.spawnParticle 4 (ArgVal.float (toSeconds 1005))] ∧
      (frame ⟨1005, 5, true⟩ (FrameInput.spawnArg4Fails 1010)).trace =
        [Cmd.api Api.SDL_GetKeyboardState, Cmd.api Api.glFinish,
          Cmd.api Api.clEnqueueAcquireGLObjects,
          Cmd.clSetKernelArg Kernel.spawnParticle 2 (ArgVal.int 1001),
          Cmd.clSetKernelArg Kernel.spawnParticle 3 (ArgVal.int 41),
          Cmd.clSetKernelArg Kernel.spawnParticle 4 (ArgVal.float (toSeconds 1005)),
          Cmd.api Api.DEBUG_BREAK] ∧
      ∀ v ∈ spawnSeeds (frame ⟨1005, 5, true⟩ (FrameInput.spawnArg4Fails 1010)).trace,
        v = 41 :=
  ⟨by decide,
    (spawn_seed_is_rand_value ⟨1005, 5, true⟩ (FrameInput.quiet 1010)).2.1 _ NUM_PARTICLES
      ((frame ⟨1005, 5, true⟩ (FrameInput.quiet 1010)).trace.drop 7) (by decide),
    by decide,
    (spawn_seed_is_rand_value ⟨1005, 5, true⟩ (FrameInput.spawnArg4Fails 1010)).1⟩

/-! ## Error names -/

theorem mem_recognisedCodes (e : Int) : e ∈ recognisedCodes ↔ isRecognisedCode e := by
  unfold recognisedCodes isRecognisedCode
  simp only [List.mem_append, List.mem_map, List.mem_range]
  constructor
  · rintro ((⟨n, hn, rfl⟩ | ⟨n, hn, rfl⟩) | ⟨n, hn, rfl⟩) <;> omega
  · rintro (h | h | h)
    · exact Or.inl (Or.inl ⟨(-e).toNat, by omega, by omega⟩)
    · exact Or.inl (Or.inr ⟨(-e - 30).toNat, by omega, by omega⟩)
    · exact Or.inr ⟨(-e - 1000).toNat, by omega, by omega⟩

theorem getErrorString_nodup : (recognisedCodes.map getErrorString).Nodup := by
  decide

theorem getErrorString_known :
    "Unknown OpenCL error" ∉ recognisedCodes.map getErrorString := by
  decide

theorem getErrorString_default (e : Int) (h : ¬ isRecognisedCode e) :
    getErrorString e = "Unknown OpenCL error" := by
  unfold isRecognisedCode at h
  unfold getErrorString
  iterate 65 rw [if_neg (by omega)]

/-- C13: `getErrorString` is defined on every code; it returns "CL_SUCCESS" for 0, distinct
names for distinct recognised codes, none of them "Unknown OpenCL error", and
"Unknown OpenCL error" exactly for the codes that are not recognised. -/
theorem getErrorString_names :
    getErrorString 0 = "CL_SUCCESS" ∧
      (∀ a b, isRecognisedCode a → isRecognisedCode b → a ≠ b →
        getErrorString a ≠ getErrorString b) ∧
      (∀ a, isRecognisedCode a → getErrorString a ≠ "Unknown OpenCL error") ∧
      (∀ a, getErrorString a = "Unknown OpenCL error" ↔ ¬ isRecognisedCode a) := by
  have hknown : ∀ a, isRecognisedCode a → getErrorString a ≠ "Unknown OpenCL error" := by
    intro a ha he
    apply getErrorString_known
    rw [← he]
    exact List.mem_map_of_mem _ ((mem_recognisedCodes a).2 ha)
  refine ⟨rfl, ?_, hknown, ?_⟩
  · intro a b ha hb hab he
    exact hab (List.inj_on_of_nodup_map getErrorString_nodup ((mem_recognisedCodes a).2 ha)
      ((mem_recognisedCodes b).2 hb) he)
  · intro a
    constructor
    · intro he ha
      exact hknown a ha he
    · exact getErrorString_default a

/-- C3 (the claim as stated fails): for `deltaTime = 5` ms the code computes the budget
1001, while `ceil(200000 × 0.005)` is 1000. -/
theorem spawn_budget_five_ms_differs :
    numParticlesToSpawn 5 = 1001 ∧ exactSpawnBudget 5 = 1000 ∧
      numParticlesToSpawn 5 ≠ exactSpawnBudget 5 := by
  decide

/-- C3 (amended): the spawn budget is the ceiling of the binary32 product
`particleSpawnRate * deltaTimeSeconds`, where `deltaTimeSeconds` is the binary32 product of
`deltaTime` and `0.001f`; for frames of up to 20 seconds it is `ceil(200000 × deltaTime / 1000)`
or one more, it is 1001 for `deltaTime = 5` and 0 for `deltaTime = 0`. -/
theorem spawn_budget_binary32 (deltaTime : Nat) (h : deltaTime ≤ 20000) :
    numParticlesToSpawn deltaTime =
        ceilToInt (roundSig24 (200000 * roundSig24 (roundSig24 deltaTime * 8589935))) ∧
      exactSpawnBudget deltaTime ≤ numParticlesToSpawn deltaTime ∧
      numParticlesToSpawn deltaTime ≤ exactSpawnBudget deltaTime + 1 ∧
      numParticlesToSpawn 5 = 1001 ∧ numParticlesToSpawn 0 = 0 := by
  refine ⟨rfl, (numParticlesToSpawn_bounds deltaTime h).1,
    (numParticlesToSpawn_bounds deltaTime h).2, by decide, by decide⟩

theorem spawn_budget_binary32_witness :
    (16 : Nat) ≤ 20000 ∧ numParticlesToSpawn 16 = 3201 ∧
      exactSpawnBudget 16 ≤ numParticlesToSpawn 16 := by
  refine ⟨by decide, by decide, (spawn_budget_binary32 16 (by decide)).2.1⟩

end GLCLParticles
